import Mathlib

/-! Talos machined: sequencer, phase runner, runners, restart wrapper, services,
importer, inspector and static addressing.

A shallow embedding of `internal/app/machined/internal/sequencer/v1alpha1/types.go`
and of the collaborators it drives.  External packages are parameters of the
embedding (`Env`); every call a lifecycle operation makes is recorded, with its
arguments and its result, in a list of `Call`s.

The phase runner (package `phase`), the runners (packages `runner`, `containerd`,
`process`), the restart wrapper (package `restart`), the image importer and the
container inspector are not among the sources; they are modelled from the
specification, and each such definition says so.

The services `Trustd` and `UdevdTrigger` (`trustd.go`, `udevd_trigger.go`) and the
static address method (`static.go`) are embedded from their sources; `static.go`
calls `net.ParseCIDR`, `net.ParseIP` and `IP.To4` of the Go standard library,
which are embedded after the library's sources.

The EC2 check (`aws.go`), the stream chunker (`stream.go`) and the image status
call (`images.go`) are embedded from their sources as well; what they call outside
the repository is a parameter of the embedding.
-/

set_option autoImplicit false

/-! ## Definitions -/

namespace constants

/-- The path to the downloaded config (`constants.ConfigPath`). -/
def ConfigPath : String := "/run/config.yaml"

/-- The label of the ephemeral partition (`constants.EphemeralPartitionLabel`). -/
def EphemeralPartitionLabel : String := "EPHEMERAL"

end constants

namespace phase

/-- Tasks are built by the constructors the sequencer calls; each constructor of
the source is one constructor here, with the arguments the source passes. -/
inductive Task (Req : Type) where
  | NewSecurityTask
  | NewSystemDirectoryTask
  | NewMountBPFFSTask
  | NewMountCgroupsTask
  | NewMountSubDevicesTask
  | NewSysctlsTask
  | NewNetworkConfigurationTask
  | NewOSReleaseTask
  | NewUserDefinedNetworkTask
  | NewConfigTask
  | NewExtraDevicesTask
  | NewExtraEnvVarsTask
  | NewExtraFilesTask
  | NewStartSystemContainerdTask
  | NewPlatformTask
  | NewCheckInstallTask
  | NewMountOverlayTask
  | NewMountSharedTask
  | NewVarDirectoriesTask
  | NewSaveConfigTask
  | NewHostnameTask
  | NewHandlerTaskACPI
  | NewStartServicesTask
  | NewHandlerTaskSignal
  | NewLabelNodeAsMasterTask
  | NewStopServicesTask
  | NewCordonAndDrainTask
  | NewLeaveEtcdTask
  | NewStopNonCrucialServicesTask
  | NewKillKubernetesTasksTask
  | NewStopContainerdTask
  | NewUnmountOverlayTask
  | NewUnmountPodMountsTask
  | NewUnmountSystemDisksTask (devname : String)
  | NewResetDiskTask (devname : String)
  | NewUpgradeTask (devname : String) (req : Req)

/-- A phase: `phase.NewPhase(description, tasks...)`. -/
structure Phase (T : Type) where
  description : String
  tasks : List T

/-- The value `phase.NewPhase` returns. -/
def NewPhase {T : Type} (description : String) (tasks : List T) : Phase T :=
  ⟨description, tasks⟩

/-- Modelled from the spec: the phase runner type of package `phase`, which is
not among the sources.  `NewRunner(config) -> PhaseRunner`: the runner keeps the
configuration it was built with, which may be absent, and the phases added. -/
structure Runner (Cfg T : Type) where
  config : Option Cfg
  phases : List (Phase T)

/-- Modelled from the spec: `Add(...Phase)` of the phase runner, which is not
among the sources; phases are kept in the order they are added. -/
def Runner.Add {Cfg T : Type} (r : Runner Cfg T) (phases : List (Phase T)) : Runner Cfg T :=
  { r with phases := r.phases ++ phases }

/-- What the tasks of a run were seen to do: task number `task` of phase number
`phase` (both counted from 0, in the order added) started, or returned `err`. -/
inductive Event (Err : Type) where
  | started (phase task : Nat)
  | returned (phase task : Nat) (err : Option Err)
  deriving DecidableEq, Repr

/-- The number of the phase an event belongs to. -/
def Event.phase {Err : Type} : Event Err → Nat
  | .started k _ => k
  | .returned k _ _ => k

/-- The error an event carries: the error a task returned. -/
def Event.err {Err : Type} : Event Err → Option Err
  | .started _ _ => none
  | .returned _ _ err => err

/-- One scheduling step inside a phase. -/
inductive Step (T : Type) where
  | start (task : Nat)
  | finish (task : Nat) (t : T)
  deriving DecidableEq, Repr

/-- Insert `a` before position `n` of the list, at the end when the list is
shorter. -/
def insertAt {α : Type} : Nat → α → List α → List α
  | 0, a, l => a :: l
  | _ + 1, a, [] => [a]
  | n + 1, a, b :: l => b :: insertAt n a l

/-- Modelled from the spec: the scheduling of the tasks of one phase, which the
phase runner (not among the sources) launches concurrently.  Each task starts
and later finishes; the steps of different tasks interleave freely.  The
interleaving is chosen by `picks`, two numbers a task: where the task's finish
goes among the steps of the later tasks, and where before it its start goes.
Tasks are numbered from `i`. -/
def interleave {T : Type} : Nat → List T → List Nat → List (Step T)
  | _, [], _ => []
  | i, t :: ts, picks =>
    let rest := interleave (i + 1) ts (picks.drop 2)
    let a := min (picks.headD 0) rest.length
    let b := min ((picks.drop 1).headD 0) a
    insertAt b (Step.start i) (insertAt a (Step.finish i t) rest)

/-- The result of running phases: what was seen, the error returned and the
machine state left. -/
structure RunResult (W Err : Type) where
  events : List (Event Err)
  err : Option Err
  world : W

/-- Modelled from the spec: the tasks of phase `k` run along a schedule.  A task
is `run(context, configuration) -> error`, here `exec t config`, and acts on the
machine state when it finishes.  The phase ends when every step is done, and its
error is the first error a task returned. -/
def runSteps {W Cfg T Err : Type} (exec : T → Option Cfg → W → Option Err × W)
    (config : Option Cfg) (k : Nat) : List (Step T) → W → RunResult W Err
  | [], w => ⟨[], none, w⟩
  | .start i :: rest, w =>
    let r := runSteps exec config k rest w
    ⟨Event.started k i :: r.events, r.err, r.world⟩
  | .finish i t :: rest, w =>
    let r := runSteps exec config k rest (exec t config w).2
    ⟨Event.returned k i (exec t config w).1 :: r.events,
      match (exec t config w).1 with
      | some err => some err
      | none => r.err,
      r.world⟩

/-- Modelled from the spec: one phase, every task launched concurrently, the
phase complete only when all its tasks are. -/
def runPhase {W Cfg T Err : Type} (exec : T → Option Cfg → W → Option Err × W)
    (config : Option Cfg) (k : Nat) (p : Phase T) (picks : List Nat) (w : W) :
    RunResult W Err :=
  runSteps exec config k (interleave 0 p.tasks picks) w

/-- Modelled from the spec: the phases from number `k` on, strictly in order; a
failed phase stops the run, which fails with that phase's error.
`sched k` chooses the interleaving of phase `k`. -/
def runFrom {W Cfg T Err : Type} (exec : T → Option Cfg → W → Option Err × W)
    (config : Option Cfg) (sched : Nat → List Nat) :
    Nat → List (Phase T) → W → RunResult W Err
  | _, [], w => ⟨[], none, w⟩
  | k, p :: ps, w =>
    match (runPhase exec config k p (sched k) w).err with
    | some err =>
      ⟨(runPhase exec config k p (sched k) w).events, some err,
        (runPhase exec config k p (sched k) w).world⟩
    | none =>
      let r := runFrom exec config sched (k + 1) ps (runPhase exec config k p (sched k) w).world
      ⟨(runPhase exec config k p (sched k) w).events ++ r.events, r.err, r.world⟩

/-- Modelled from the spec: `Run() -> error` of the phase runner, which is not
among the sources: the phases added, in the order added. -/
def Runner.Run {W Cfg T Err : Type} (exec : T → Option Cfg → W → Option Err × W)
    (sched : Nat → List Nat) (r : Runner Cfg T) (w : W) : RunResult W Err :=
  runFrom exec r.config sched 0 r.phases w

/-- A task behaviour for concrete runs: the task `true` fails, the task `false`
succeeds, and every task counts itself in the machine state. -/
def sampleExec (t : Bool) (_ : Option Unit) (w : Nat) : Option String × Nat :=
  (if t then some "task failed" else none, w + 1)

/-- A runner for concrete runs: three phases, a task of the second one fails. -/
def sampleRunner : Runner Unit Bool :=
  (Runner.mk none []).Add
    [NewPhase "first" [false, false], NewPhase "second" [true, false], NewPhase "third" [false]]

end phase

namespace v1alpha1

open phase

/-- The collaborators of the sequencer, each a transformer of the machine state
`W`: `phase.NewRunner` (only whether it fails is external, the runner value is
`phase.Runner`), the runner's `Run`, `config.FromFile`, `config.New`,
`probe.GetDevWithFileSystemLabel`, the device name and the device's `Close`. -/
structure Env (W Cfg Content Dev Req Err : Type) where
  NewRunner : Option Cfg → W → Option Err × W
  Run : Runner Cfg (phase.Task Req) → W → Option Err × W
  FromFile : String → W → Except Err Content × W
  New : Content → W → Except Err Cfg × W
  GetDevWithFileSystemLabel : String → W → Except Err Dev × W
  Name : Dev → String
  Close : Dev → W → Option Err × W

/-- One call of a lifecycle operation to a collaborator, with what it returned. -/
inductive Call (Cfg Content Dev Req Err : Type) where
  | NewRunner (config : Option Cfg) (err : Option Err)
  | Add (phases : List (Phase (phase.Task Req)))
  | Run (runner : Runner Cfg (phase.Task Req)) (err : Option Err)
  | FromFile (path : String) (result : Except Err Content)
  | New (content : Content) (result : Except Err Cfg)
  | GetDevWithFileSystemLabel (label : String) (result : Except Err Dev)
  | Close (dev : Dev) (err : Option Err)

/-- What a lifecycle operation returns, the machine state it leaves and the
calls it made, oldest first. -/
structure Outcome (W Cfg Content Dev Req Err : Type) where
  err : Option Err
  world : W
  calls : List (Call Cfg Content Dev Req Err)

section operations

variable {W Cfg Content Dev Req Err : Type}

/-- The phases of the first `phaserunner.Add` of `Boot` (types.go, 37-60). -/
def bootPhasesEarly : List (Phase (phase.Task Req)) :=
  [ NewPhase "system requirements"
      [phase.Task.NewSecurityTask, phase.Task.NewSystemDirectoryTask, phase.Task.NewMountBPFFSTask,
       phase.Task.NewMountCgroupsTask, phase.Task.NewMountSubDevicesTask, phase.Task.NewSysctlsTask],
    NewPhase "basic system configuration"
      [phase.Task.NewNetworkConfigurationTask, phase.Task.NewOSReleaseTask],
    NewPhase "initial network" [phase.Task.NewUserDefinedNetworkTask],
    NewPhase "config" [phase.Task.NewConfigTask] ]

/-- The phases of the second `phaserunner.Add` of `Boot` (types.go, 81-127). -/
def bootPhasesLate : List (Phase (phase.Task Req)) :=
  [ NewPhase "mount extra devices" [phase.Task.NewExtraDevicesTask],
    NewPhase "user requests" [phase.Task.NewExtraEnvVarsTask, phase.Task.NewExtraFilesTask],
    NewPhase "start system-containerd" [phase.Task.NewStartSystemContainerdTask],
    NewPhase "platform tasks" [phase.Task.NewPlatformTask],
    NewPhase "installation verification" [phase.Task.NewCheckInstallTask],
    NewPhase "overlay mounts" [phase.Task.NewMountOverlayTask, phase.Task.NewMountSharedTask],
    NewPhase "setup /var" [phase.Task.NewVarDirectoriesTask],
    NewPhase "save config" [phase.Task.NewSaveConfigTask, phase.Task.NewHostnameTask],
    NewPhase "start services"
      [phase.Task.NewHandlerTaskACPI, phase.Task.NewStartServicesTask, phase.Task.NewHandlerTaskSignal],
    NewPhase "post startup tasks" [phase.Task.NewLabelNodeAsMasterTask] ]

/-- The phases of the `phaserunner.Add` of `Shutdown` (types.go, 149-154). -/
def shutdownPhases : List (Phase (phase.Task Req)) :=
  [ NewPhase "stop services" [phase.Task.NewStopServicesTask] ]

/-- The phases of the `phaserunner.Add` of `Upgrade` (types.go, 189-224). -/
def upgradePhases (devname : String) (req : Req) : List (Phase (phase.Task Req)) :=
  [ NewPhase "cordon and drain node" [phase.Task.NewCordonAndDrainTask, phase.Task.NewLeaveEtcdTask],
    NewPhase "stop services" [phase.Task.NewStopNonCrucialServicesTask],
    NewPhase "kill all tasks" [phase.Task.NewKillKubernetesTasksTask],
    NewPhase "stop containerd" [phase.Task.NewStopContainerdTask],
    NewPhase "remove submounts" [phase.Task.NewUnmountOverlayTask, phase.Task.NewUnmountPodMountsTask],
    NewPhase "unmount system disk" [phase.Task.NewUnmountSystemDisksTask devname],
    NewPhase "reset partition" [phase.Task.NewResetDiskTask devname],
    NewPhase "upgrade" [phase.Task.NewUpgradeTask devname req] ]

/-- The tail of `Boot` from `config.FromFile` on (types.go, 66-129). -/
def bootLate (env : Env W Cfg Content Dev Req Err) (w : W)
    (calls : List (Call Cfg Content Dev Req Err)) : Outcome W Cfg Content Dev Req Err :=
  match env.FromFile constants.ConfigPath w with
  | (.error err, w1) => ⟨some err, w1, calls ++ [.FromFile constants.ConfigPath (.error err)]⟩
  | (.ok content, w1) =>
    match env.New content w1 with
    | (.error err, w2) =>
      ⟨some err, w2, calls ++ [.FromFile constants.ConfigPath (.ok content),
        .New content (.error err)]⟩
    | (.ok config, w2) =>
      match env.NewRunner (some config) w2 with
      | (some err, w3) =>
        ⟨some err, w3, calls ++ [.FromFile constants.ConfigPath (.ok content),
          .New content (.ok config), .NewRunner (some config) (some err)]⟩
      | (none, w3) =>
        let phaserunner := (Runner.mk (some config) []).Add bootPhasesLate
        match env.Run phaserunner w3 with
        | (err, w4) =>
          ⟨err, w4, calls ++ [.FromFile constants.ConfigPath (.ok content),
            .New content (.ok config), .NewRunner (some config) none,
            .Add bootPhasesLate, .Run phaserunner err]⟩

/-- The method `Sequencer.Boot` (types.go, 31-130). -/
def Boot (env : Env W Cfg Content Dev Req Err) (w : W) : Outcome W Cfg Content Dev Req Err :=
  match env.NewRunner none w with
  | (some err, w1) => ⟨some err, w1, [.NewRunner none (some err)]⟩
  | (none, w1) =>
    let phaserunner := (Runner.mk none []).Add bootPhasesEarly
    match env.Run phaserunner w1 with
    | (some err, w2) =>
      ⟨some err, w2, [.NewRunner none none, .Add bootPhasesEarly, .Run phaserunner (some err)]⟩
    | (none, w2) =>
      bootLate env w2 [.NewRunner none none, .Add bootPhasesEarly, .Run phaserunner none]

/-- The method `Sequencer.Shutdown` (types.go, 133-157). -/
def Shutdown (env : Env W Cfg Content Dev Req Err) (w : W) :
    Outcome W Cfg Content Dev Req Err :=
  match env.FromFile constants.ConfigPath w with
  | (.error err, w1) => ⟨some err, w1, [.FromFile constants.ConfigPath (.error err)]⟩
  | (.ok content, w1) =>
    match env.New content w1 with
    | (.error err, w2) =>
      ⟨some err, w2, [.FromFile constants.ConfigPath (.ok content), .New content (.error err)]⟩
    | (.ok config, w2) =>
      match env.NewRunner (some config) w2 with
      | (some err, w3) =>
        ⟨some err, w3, [.FromFile constants.ConfigPath (.ok content),
          .New content (.ok config), .NewRunner (some config) (some err)]⟩
      | (none, w3) =>
        let phaserunner := (Runner.mk (some config) []).Add shutdownPhases
        match env.Run phaserunner w3 with
        | (err, w4) =>
          ⟨err, w4, [.FromFile constants.ConfigPath (.ok content),
            .New content (.ok config), .NewRunner (some config) none,
            .Add shutdownPhases, .Run phaserunner err]⟩

/-- The tail of `Upgrade` from `probe.GetDevWithFileSystemLabel` on
(types.go, 176-226). -/
def upgradeLate (env : Env W Cfg Content Dev Req Err) (req : Req) (config : Cfg) (w : W)
    (calls : List (Call Cfg Content Dev Req Err)) : Outcome W Cfg Content Dev Req Err :=
  match env.GetDevWithFileSystemLabel constants.EphemeralPartitionLabel w with
  | (.error err, w1) =>
    ⟨some err, w1,
      calls ++ [.GetDevWithFileSystemLabel constants.EphemeralPartitionLabel (.error err)]⟩
  | (.ok dev, w1) =>
    let devname := env.Name dev
    match env.Close dev w1 with
    | (some err, w2) =>
      ⟨some err, w2,
        calls ++ [.GetDevWithFileSystemLabel constants.EphemeralPartitionLabel (.ok dev),
          .Close dev (some err)]⟩
    | (none, w2) =>
      let phaserunner := (Runner.mk (some config) []).Add (upgradePhases devname req)
      match env.Run phaserunner w2 with
      | (err, w3) =>
        ⟨err, w3,
          calls ++ [.GetDevWithFileSystemLabel constants.EphemeralPartitionLabel (.ok dev),
            .Close dev none, .Add (upgradePhases devname req), .Run phaserunner err]⟩

/-- The method `Sequencer.Upgrade` (types.go, 160-227). -/
def Upgrade (env : Env W Cfg Content Dev Req Err) (req : Req) (w : W) :
    Outcome W Cfg Content Dev Req Err :=
  match env.FromFile constants.ConfigPath w with
  | (.error err, w1) => ⟨some err, w1, [.FromFile constants.ConfigPath (.error err)]⟩
  | (.ok content, w1) =>
    match env.New content w1 with
    | (.error err, w2) =>
      ⟨some err, w2, [.FromFile constants.ConfigPath (.ok content), .New content (.error err)]⟩
    | (.ok config, w2) =>
      match env.NewRunner (some config) w2 with
      | (some err, w3) =>
        ⟨some err, w3, [.FromFile constants.ConfigPath (.ok content),
          .New content (.ok config), .NewRunner (some config) (some err)]⟩
      | (none, w3) =>
        upgradeLate env req config w3 [.FromFile constants.ConfigPath (.ok content),
          .New content (.ok config), .NewRunner (some config) none]

/-- The phase names of the phase lists handed to `Add`, call by call. -/
def addedNames : List (Call Cfg Content Dev Req Err) → List (List String)
  | [] => []
  | .Add phases :: rest => phases.map Phase.description :: addedNames rest
  | _ :: rest => addedNames rest

/-- The error a call returned, if it failed. -/
def Call.err : Call Cfg Content Dev Req Err → Option Err
  | .NewRunner _ err => err
  | .Add _ => none
  | .Run _ err => err
  | .FromFile _ (.error err) => some err
  | .FromFile _ (.ok _) => none
  | .New _ (.error err) => some err
  | .New _ (.ok _) => none
  | .GetDevWithFileSystemLabel _ (.error err) => some err
  | .GetDevWithFileSystemLabel _ (.ok _) => none
  | .Close _ err => err

/-- The runner of the first pipeline of `Boot`: built without a configuration,
with the early phases added. -/
def earlyRunner : Runner Cfg (phase.Task Req) := (Runner.mk none []).Add bootPhasesEarly

/-- The runner of the second pipeline of `Boot`: built with `config`, with the
late phases added. -/
def lateRunner (config : Cfg) : Runner Cfg (phase.Task Req) :=
  (Runner.mk (some config) []).Add bootPhasesLate

end operations

end v1alpha1

namespace runner

/-- The two variants of a runner: a direct OS process (`process.NewRunner`) or a
containerd-backed container (`containerdrunner.NewRunner`). -/
inductive Variant where
  | process
  | container
  deriving DecidableEq, Repr

/-- The signals a runner sends: the graceful stop signal (SIGTERM, the
container's stop signal) and the kill signal (SIGKILL). -/
inductive Signal where
  | stop
  | kill
  deriving DecidableEq, Repr

/-- What a runner asks of the runtime, in the order asked. -/
inductive Action where
  | deleteContainer (id : String)
  | createContainer (id : String)
  | startTask (id : String)
  | deleteTask (id : String)
  | signal (id : String) (s : Signal)
  | wait (timeout : Nat)
  deriving DecidableEq, Repr

/-- Modelled from the spec: the workload of a runner, as far as the runner can
tell: `exit` is the result of a workload that exits by itself (`none` inside for
success, an error for a failure), absent for one that runs until it is
terminated; `ignoresStop` says that the graceful stop signal does not end it. -/
structure Workload where
  exit : Option (Option String)
  ignoresStop : Bool
  deriving DecidableEq, Repr

/-- Modelled from the spec: the state of the runtime a runner works in (the
containerd namespace, the process table): the ids of the containers that exist,
the ids of the live tasks, the log of what runners asked, and `killFails`: the
error with which the runtime fails to terminate a workload forcefully, absent
when it delivers a kill signal, which ends the workload.  The runtime delivers
every stop signal. -/
structure Runtime where
  containers : List String
  tasks : List String
  log : List Action
  killFails : Option String
  deriving DecidableEq, Repr

/-- Where a runner is in its life: built, opened, inside `Run`, `Run` returned
`err`, closed. -/
inductive Status where
  | created
  | opened
  | running
  | returned (err : Option String)
  | closed
  deriving DecidableEq, Repr

/-- Modelled from the spec: a runner instance (package `runner` and its
`containerd` and `process` variants are not among the sources): the launch spec
`id`, `gracefulShutdownTimeout`, the workload it launches, and its status. -/
structure Runner where
  variant : Variant
  id : String
  gracefulShutdownTimeout : Nat
  workload : Workload
  status : Status
  deriving DecidableEq, Repr

/-- Modelled from the spec: `NewRunner` of either variant. -/
def NewRunner (variant : Variant) (id : String) (gracefulShutdownTimeout : Nat)
    (workload : Workload) : Runner :=
  ⟨variant, id, gracefulShutdownTimeout, workload, .created⟩

/-- The runtime forcibly deletes the container `id`, its task included. -/
def Runtime.deleteContainer (rt : Runtime) (id : String) : Runtime :=
  { rt with
    containers := rt.containers.filter (· ≠ id),
    tasks := rt.tasks.filter (· ≠ id),
    log := rt.log ++ [.deleteContainer id] }

/-- The runtime creates the container `id`; an id that exists is a conflict. -/
def Runtime.createContainer (rt : Runtime) (id : String) : Except String Runtime :=
  if id ∈ rt.containers then .error ("container already exists: " ++ id)
  else .ok { rt with containers := id :: rt.containers, log := rt.log ++ [.createContainer id] }

/-- The runtime starts the task `id`; a container task needs its container, and a
live task of the same id is a conflict. -/
def Runtime.startTask (rt : Runtime) (variant : Variant) (id : String) :
    Except String Runtime :=
  if variant = .container ∧ id ∉ rt.containers then .error ("container not found: " ++ id)
  else if id ∈ rt.tasks then .error ("task already exists: " ++ id)
  else .ok { rt with tasks := id :: rt.tasks, log := rt.log ++ [.startTask id] }

/-- The task `id` is over and is deleted. -/
def Runtime.deleteTask (rt : Runtime) (id : String) : Runtime :=
  { rt with tasks := rt.tasks.filter (· ≠ id), log := rt.log ++ [.deleteTask id] }

/-- The runtime notes a request that leaves containers and tasks as they are. -/
def Runtime.note (rt : Runtime) (a : Action) : Runtime :=
  { rt with log := rt.log ++ [a] }

/-- Modelled from the spec: `Open(context) -> error`.  Container variant: "on
Open, if a container with the same id pre-exists (stale from a previous crashed
run) it is forcibly deleted first to guarantee a clean create". -/
def Runner.Open (r : Runner) (rt : Runtime) : Option String × Runner × Runtime :=
  match r.variant with
  | .process => (none, { r with status := .opened }, rt)
  | .container =>
    let rt1 := if r.id ∈ rt.containers then rt.deleteContainer r.id else rt
    match rt1.createContainer r.id with
    | .error err => (some err, r, rt1)
    | .ok rt2 => (none, { r with status := .opened }, rt2)

/-- Modelled from the spec: `Run(eventSink) -> error`, which "blocks until the
workload exits or is stopped".  The first component is what `Run` returned, absent
while `Run` is still blocked on a workload that does not exit by itself. -/
def Runner.Run (r : Runner) (rt : Runtime) : Option (Option String) × Runner × Runtime :=
  match rt.startTask r.variant r.id with
  | .error err => (some (some err), { r with status := .returned (some err) }, rt)
  | .ok rt1 =>
    match r.workload.exit with
    | some res => (some res, { r with status := .returned res }, rt1.deleteTask r.id)
    | none => (none, { r with status := .running }, rt1)

/-- Modelled from the spec: `Stop() -> error`, "request graceful termination — a
no-op returning success if already exited".  On a runner inside `Run` it sends the
stop signal, "then waits up to the graceful timeout before issuing a kill signal".
When the kill is delivered the workload is over and the pending `Run` returns; "a
subsequent failure to forcefully terminate is fatal and reported": `Stop` returns
that failure, and the workload goes on. -/
def Runner.Stop (r : Runner) (rt : Runtime) : Option String × Runner × Runtime :=
  match r.status with
  | .running =>
    let rt1 := rt.note (.signal r.id .stop)
    if r.workload.ignoresStop then
      let rt2 := (rt1.note (.wait r.gracefulShutdownTimeout)).note (.signal r.id .kill)
      match rt.killFails with
      | some err => (some err, r, rt2)
      | none => (none, { r with status := .returned none }, rt2.deleteTask r.id)
    else
      (none, { r with status := .returned none }, rt1.deleteTask r.id)
  | _ => (none, r, rt)

/-- Modelled from the spec: `Close() -> error`, "release all resources; safe to
call multiple times"; the container variant "removes the container/task". -/
def Runner.Close (r : Runner) (rt : Runtime) : Option String × Runner × Runtime :=
  match r.variant with
  | .process => (none, { r with status := .closed }, rt)
  | .container =>
    (none, { r with status := .closed },
      if r.id ∈ rt.containers then rt.deleteContainer r.id else rt)

/-- In a containerd namespace every live task belongs to a container. -/
def Runtime.wellFormed (rt : Runtime) : Prop :=
  ∀ id ∈ rt.tasks, id ∈ rt.containers

instance (rt : Runtime) : Decidable rt.wellFormed := by
  unfold Runtime.wellFormed
  infer_instance

/-- What a call returned, for a call that did return. -/
def returned (err : Option String) : Option (Option String) := some err

/-- The scenario of `TestRunTwice` (containerd_test.go, 147-180): Open, then twice
Run followed by Stop; the results of the five calls, in order. -/
def TestRunTwice (r : Runner) (rt : Runtime) : List (Option (Option String)) :=
  let o := r.Open rt
  let x1 := o.2.1.Run o.2.2
  let s1 := x1.2.1.Stop x1.2.2
  let x2 := s1.2.1.Run s1.2.2
  let s2 := x2.2.1.Stop x2.2.2
  [returned o.1, x1.1, returned s1.1, x2.1, returned s2.1]

/-- The scenario of `TestContainerCleanup` (containerd_test.go, 182-216): a first
runner is opened and never closed, a second runner with the same id is opened,
run and stopped; the results of the four calls, in order. -/
def TestContainerCleanup (r1 r2 : Runner) (rt : Runtime) : List (Option (Option String)) :=
  let o1 := r1.Open rt
  let o2 := r2.Open o1.2.2
  let x := o2.2.1.Run o2.2.2
  let s := x.2.1.Stop x.2.2
  [returned o1.1, returned o2.1, x.1, returned s.1]

end runner

namespace restart

/-- Modelled from the spec: the restart policy, "tagged variant `{Once}` or
`{Forever, interval: duration}`" (`restart.WithType`, `restart.WithRestartInterval`). -/
inductive Policy where
  | Once
  | Forever (interval : Nat)
  deriving DecidableEq, Repr

/-- What the wrapper sees of one run of its inner runner: the inner runner exited
by itself with `res` and the restart interval then elapsed; it exited by itself
and an external Stop was observed during the wait that followed; or an external
Stop was observed while it was running and, stopped, it returned `res`. -/
inductive Round where
  | exitThenElapsed (res : Option String)
  | exitThenStop (res : Option String)
  | stopWhileRunning (res : Option String)
  deriving DecidableEq, Repr

/-- What the inner runner returned in a round. -/
def Round.result : Round → Option String
  | .exitThenElapsed res => res
  | .exitThenStop res => res
  | .stopWhileRunning res => res

/-- What the wrapper does with its inner runner. -/
inductive Act where
  | run
  | stop
  | wait (interval : Nat)
  | reopen
  deriving DecidableEq, Repr

/-- The acts of the wrapper so far and what its `Run` returned, absent while it
has not returned. -/
structure Result where
  acts : List Act
  returned : Option (Option String)
  deriving DecidableEq, Repr

/-- Modelled from the spec: the loop of the restart wrapper (package `restart` is
not among the sources), entered as the inner runner is started.  "`Once`: runs the
inner Runner exactly one time; its exit (success or failure) is the wrapper's
final result.  `Forever`: on each exit of the inner Runner, waits `interval` then
re-Opens and re-Runs a fresh inner Runner instance, indefinitely, until an
external `Stop` is observed — at which point the loop exits without restarting." -/
def loop (p : Policy) : List Round → Result
  | [] => ⟨[.run], none⟩
  | .stopWhileRunning res :: _ => ⟨[.run, .stop], some res⟩
  | .exitThenStop res :: _ =>
    match p with
    | .Once => ⟨[.run], some res⟩
    | .Forever interval => ⟨[.run, .wait interval], some none⟩
  | .exitThenElapsed res :: rest =>
    match p with
    | .Once => ⟨[.run], some res⟩
    | .Forever interval =>
      ⟨[.run, .wait interval, .reopen] ++ (loop p rest).acts, (loop p rest).returned⟩

/-- Modelled from the spec: `Run` of the restart wrapper over what it observes,
round by round. -/
def Run (p : Policy) (script : List Round) : Result :=
  loop p script

/-- How many times the inner runner was invoked. -/
def Result.invocations (r : Result) : Nat :=
  r.acts.count .run

/-- How many times the inner runner exited by itself before an external Stop was
observed: the rounds before the first Stop, and the round of a Stop that came
during the wait after an exit. -/
def exitsBeforeStop : List Round → Nat
  | [] => 0
  | .exitThenElapsed _ :: rest => exitsBeforeStop rest + 1
  | .exitThenStop _ :: _ => 1
  | .stopWhileRunning _ :: _ => 0

end restart

/-! ### The Go standard library, package `net`

The functions of package `net` that `static.go` calls, after the Go sources of the
time of the repository (Go 1.13): `ParseCIDR`, `ParseIP`, `IP.To4` and what they
use.  Text is a list of characters, a byte is a natural number. -/

namespace net

/-- An IP address as Go holds it: a slice of bytes, 4 or 16 of them. -/
abbrev IP := List Nat

/-- A network mask as Go holds it: a slice of bytes. -/
abbrev IPMask := List Nat

/-- The type `net.IPNet` of the Go standard library. -/
structure IPNet where
  IP : IP
  Mask : IPMask
  deriving DecidableEq, Repr

/-- The type `net.Interface` of the Go standard library, as far as the sources
read it; `MTU` is a Go `int`. -/
structure Interface where
  Name : String
  MTU : Int
  deriving DecidableEq, Repr

/-- The constant `net.IPv4len`. -/
def IPv4len : Nat := 4

/-- The constant `net.IPv6len`. -/
def IPv6len : Nat := 16

/-- The bytes that come before an IPv4 address held in 16 bytes. -/
def v4InV6Prefix : List Nat := [0, 0, 0, 0, 0, 0, 0, 0, 0, 0, 0xff, 0xff]

/-- The function `net.IPv4`: the 16-byte form of the IPv4 address a.b.c.d. -/
def IPv4 (a b c d : Nat) : IP := v4InV6Prefix ++ [a, b, c, d]

/-- The bound `big` of the number parsers of package `net`. -/
def big : Nat := 0xFFFFFF

/-- The loop of `dtoi`: `n` is the number read so far, `i` the characters read. -/
def dtoiLoop : List Char → Nat → Nat → Nat × Nat × Bool
  | [], n, i => if i = 0 then (0, 0, false) else (n, i, true)
  | c :: cs, n, i =>
    if '0' ≤ c ∧ c ≤ '9' then
      if n * 10 + (c.toNat - '0'.toNat) ≥ big then (big, i, false)
      else dtoiLoop cs (n * 10 + (c.toNat - '0'.toNat)) (i + 1)
    else if i = 0 then (0, 0, false) else (n, i, true)

/-- The function `dtoi` of package `net`: decimal to integer; the number, the
characters consumed, success. -/
def dtoi (s : List Char) : Nat × Nat × Bool := dtoiLoop s 0 0

/-- The value of a hexadecimal digit, if the character is one. -/
def hexDigit (c : Char) : Option Nat :=
  if '0' ≤ c ∧ c ≤ '9' then some (c.toNat - '0'.toNat)
  else if 'a' ≤ c ∧ c ≤ 'f' then some (c.toNat - 'a'.toNat + 10)
  else if 'A' ≤ c ∧ c ≤ 'F' then some (c.toNat - 'A'.toNat + 10)
  else none

/-- The loop of `xtoi`. -/
def xtoiLoop : List Char → Nat → Nat → Nat × Nat × Bool
  | [], n, i => if i = 0 then (0, i, false) else (n, i, true)
  | c :: cs, n, i =>
    match hexDigit c with
    | some d =>
      if n * 16 + d ≥ big then (0, i, false)
      else xtoiLoop cs (n * 16 + d) (i + 1)
    | none => if i = 0 then (0, i, false) else (n, i, true)

/-- The function `xtoi` of package `net`: hexadecimal to integer. -/
def xtoi (s : List Char) : Nat × Nat × Bool := xtoiLoop s 0 0

/-- The loop of `parseIPv4`: `k` octets are still to be read, `first` says that
none has been read; the octets read and what is left of the text. -/
def parseIPv4Loop : Nat → Bool → List Char → Option (List Nat × List Char)
  | 0, _, s => some ([], s)
  | k + 1, first, s =>
    if s = [] then none
    else
      match (if first then some s else
              match s with
              | '.' :: t => some t
              | _ => none) with
      | none => none
      | some s1 =>
        if (dtoi s1).2.2 = false ∨ (dtoi s1).1 > 0xFF then none
        else
          match parseIPv4Loop k false (s1.drop (dtoi s1).2.1) with
          | none => none
          | some (octets, rest) => some ((dtoi s1).1 :: octets, rest)

/-- The function `parseIPv4` of package `net`: an IPv4 address d.d.d.d, in its
16-byte form. -/
def parseIPv4 (s : List Char) : Option IP :=
  match parseIPv4Loop 4 true s with
  | some ([a, b, c, d], []) => some (IPv4 a b c d)
  | _ => none

/-- The variables of the loop of `parseIPv6`: the address being filled, the
position of the ellipsis if one was seen, the position reached, the text left. -/
structure V6State where
  ip : List Nat
  ellipsis : Option Nat
  i : Nat
  s : List Char
  deriving DecidableEq, Repr

/-- The loop of `parseIPv6`, "parsing hex numbers followed by colon"; `none` is
the `return nil` of the loop, otherwise the variables when the loop is left. -/
def parseIPv6Loop : Nat → V6State → Option V6State
  | 0, st => some st
  | fuel + 1, st =>
    if ¬ st.i < IPv6len then some st
    else if (xtoi st.s).2.2 = false ∨ (xtoi st.s).1 > 0xFFFF then none
    else if (xtoi st.s).2.1 < st.s.length ∧ st.s.get? (xtoi st.s).2.1 = some '.' then
      if st.ellipsis = none ∧ st.i ≠ IPv6len - IPv4len then none
      else if st.i + IPv4len > IPv6len then none
      else
        match parseIPv4 st.s with
        | none => none
        | some ip4 =>
          some { ip := (((st.ip.set st.i (ip4.getD 12 0)).set (st.i + 1) (ip4.getD 13 0)).set
                    (st.i + 2) (ip4.getD 14 0)).set (st.i + 3) (ip4.getD 15 0),
                 ellipsis := st.ellipsis, i := st.i + IPv4len, s := [] }
    else
      let ip1 := (st.ip.set st.i ((xtoi st.s).1 >>> 8)).set (st.i + 1) ((xtoi st.s).1 % 256)
      match st.s.drop (xtoi st.s).2.1 with
      | [] => some { ip := ip1, ellipsis := st.ellipsis, i := st.i + 2, s := [] }
      | ':' :: ':' :: s3 =>
        if st.ellipsis ≠ none then none
        else if s3 = [] then some { ip := ip1, ellipsis := some (st.i + 2), i := st.i + 2, s := [] }
        else parseIPv6Loop fuel { ip := ip1, ellipsis := some (st.i + 2), i := st.i + 2, s := s3 }
      | ':' :: c :: s2 =>
        parseIPv6Loop fuel { ip := ip1, ellipsis := st.ellipsis, i := st.i + 2, s := c :: s2 }
      | _ => none

/-- The end of `parseIPv6`: "if didn't parse enough, expand ellipsis": the `n`
missing bytes are opened at the ellipsis and zeroed. -/
def expandEllipsis (ip : List Nat) (i ellipsis : Nat) : List Nat :=
  let n := IPv6len - i
  let moved := (List.range (i - ellipsis)).foldl
    (fun ip t => ip.set (i - 1 - t + n) (ip.getD (i - 1 - t) 0)) ip
  (List.range n).foldl (fun ip t => ip.set (ellipsis + t) 0) moved

/-- The end of `parseIPv6`, after its loop: the whole text must have been used;
an address that is not full needs an ellipsis, which is expanded; a full one must
not have one. -/
def parseIPv6Finish : Option V6State → Option IP
  | none => none
  | some st =>
    if st.s ≠ [] then none
    else if st.i < IPv6len then
      match st.ellipsis with
      | none => none
      | some e => some (expandEllipsis st.ip st.i e)
    else if st.ellipsis ≠ none then none
    else some st.ip

/-- The function `parseIPv6` of package `net`, without a zone: a leading ellipsis
is taken first ("might be only ellipsis"), then the loop runs. -/
def parseIPv6 (s : List Char) : Option IP :=
  match s with
  | [':', ':'] => some (List.replicate IPv6len 0)
  | ':' :: ':' :: rest =>
    parseIPv6Finish (parseIPv6Loop IPv6len ⟨List.replicate IPv6len 0, some 0, 0, rest⟩)
  | _ => parseIPv6Finish (parseIPv6Loop IPv6len ⟨List.replicate IPv6len 0, none, 0, s⟩)

/-- The loop of `net.ParseIP` over the characters: the text is read as IPv4 if a
`.` comes first, as IPv6 if a `:` comes first; `none` is the nil address. -/
def ParseIPChars (all : List Char) : List Char → Option IP
  | [] => none
  | c :: cs =>
    if c = '.' then parseIPv4 all
    else if c = ':' then parseIPv6 all
    else ParseIPChars all cs

/-- The function `net.ParseIP` of the Go standard library. -/
def ParseIP (s : String) : Option IP := ParseIPChars s.toList s.toList

/-- The loop of `net.CIDRMask`: `l` bytes are still to be written, `n` bits are
still to be set. -/
def CIDRMaskLoop : Nat → Nat → List Nat
  | 0, _ => []
  | l + 1, n =>
    if n ≥ 8 then 0xff :: CIDRMaskLoop l (n - 8)
    else (0xff - (0xff >>> n)) :: CIDRMaskLoop l 0

/-- The function `net.CIDRMask`: a mask of `bits` bits whose first `ones` bits are
set; `none` is the nil mask. -/
def CIDRMask (ones bits : Nat) : Option IPMask :=
  if bits ≠ 8 * IPv4len ∧ bits ≠ 8 * IPv6len then none
  else if ones > bits then none
  else some (CIDRMaskLoop (bits / 8) ones)

/-- The method `IP.Mask`: the address with the mask applied; `none` is nil. -/
def IP.Mask (ip : IP) (mask : IPMask) : Option IP :=
  let mask1 := if mask.length = IPv6len ∧ ip.length = IPv4len ∧ (mask.take 12).all (· = 0xff)
    then mask.drop 12 else mask
  let ip1 := if mask1.length = IPv4len ∧ ip.length = IPv6len ∧ ip.take 12 = v4InV6Prefix
    then ip.drop 12 else ip
  if ip1.length ≠ mask1.length then none
  else some (List.zipWith (· &&& ·) ip1 mask1)

/-- The method `IP.To4`: the 4-byte form of an IPv4 address; `none` is nil. -/
def IP.To4 (ip : IP) : Option IP :=
  if ip.length = IPv4len then some ip
  else if ip.length = IPv6len ∧ (ip.take 10).all (· = 0) ∧ ip.getD 10 0 = 0xff
      ∧ ip.getD 11 0 = 0xff then some ((ip.take 16).drop 12)
  else none

/-- The function `net.ParseCIDR` on the characters of its argument: the address
and the network of "a/n"; `none` stands for the error, with which both results
are nil.  A nil slice inside the network is the empty list. -/
def ParseCIDRChars (s : List Char) : Option (IP × IPNet) :=
  match s.indexOf? '/' with
  | none => none
  | some i =>
    let addr := s.take i
    let mask := s.drop (i + 1)
    let iplen := if (parseIPv4 addr).isSome then IPv4len else IPv6len
    let ip := if (parseIPv4 addr).isSome then parseIPv4 addr else parseIPv6 addr
    match ip with
    | none => none
    | some ip =>
      if (dtoi mask).2.2 = false ∨ (dtoi mask).2.1 ≠ mask.length ∨ (dtoi mask).1 > 8 * iplen
      then none
      else
        let m := (CIDRMask (dtoi mask).1 (8 * iplen)).getD []
        some (ip, ⟨(ip.Mask m).getD [], m⟩)

/-- The function `net.ParseCIDR` of the Go standard library. -/
def ParseCIDR (s : String) : Option (IP × IPNet) := ParseCIDRChars s.toList

end net

namespace unix

/-- The constant `unix.AF_INET` of golang.org/x/sys/unix (Linux). -/
def AF_INET : Nat := 2

/-- The constant `unix.AF_INET6` of golang.org/x/sys/unix (Linux). -/
def AF_INET6 : Nat := 10

end unix

namespace machine

/-- The type `machine.Route` of pkg/config/machine, which is not among the
sources, as far as `static.go` reads it. -/
structure Route where
  Network : String
  Gateway : String
  deriving DecidableEq, Repr

/-- The type `machine.Device` of pkg/config/machine, which is not among the
sources, as far as `static.go` reads it.  `MTU` is a Go `int`, which the source
narrows with `uint32(...)`. -/
structure Device where
  Interface : String
  CIDR : String
  MTU : Int
  Routes : List Route
  deriving DecidableEq, Repr

end machine

namespace address

/-- The conversion `uint32(x)` of a Go `int`: the value modulo 2^32. -/
def uint32 (x : Int) : Nat := (x % 4294967296).toNat

/-- The type `Route` of package `address`, which is not among the sources, as
`static.go` builds it: a network that may be nil and a router that may be nil. -/
structure Route where
  Dest : Option net.IPNet
  Router : Option net.IP
  deriving DecidableEq, Repr

/-- The type `Static` (static.go, 18-21); both fields are pointers and may be
nil. -/
structure Static where
  Device : Option machine.Device
  NetIf : Option net.Interface
  deriving DecidableEq, Repr

/-- The method `Static.Address` (static.go, 35-41).  `none` is the fault of the
run time on a nil pointer: `s.Device` nil, or `ipn` nil when `ParseCIDR` fails. -/
def Static.Address (s : Static) : Option net.IPNet :=
  match s.Device with
  | none => none
  | some d =>
    match net.ParseCIDR d.CIDR with
    | none => none
    | some (ip, ipn) => some { ipn with IP := ip }

/-- The method `Static.Mask` (static.go, 44-48); `none` is the fault on a nil
pointer. -/
def Static.Mask (s : Static) : Option net.IPMask :=
  match s.Device with
  | none => none
  | some d =>
    match net.ParseCIDR d.CIDR with
    | none => none
    | some (_, ipnet) => some ipnet.Mask

/-- The method `Static.MTU` (static.go, 51-58); `none` is the fault on a nil
pointer. -/
def Static.MTU (s : Static) : Option Nat :=
  match s.Device with
  | none => none
  | some d =>
    if uint32 d.MTU = 0 then
      match s.NetIf with
      | none => none
      | some netif => some (uint32 netif.MTU)
    else some (uint32 d.MTU)

/-- The method `Static.Family` (static.go, 67-73); `none` is the fault on a nil
pointer. -/
def Static.Family (s : Static) : Option Nat :=
  match s.Address with
  | none => none
  | some a => if a.IP.To4 ≠ none then some unix.AF_INET else some unix.AF_INET6

/-- The method `Static.Routes` (static.go, 82-91): the loop appends one route for
each configured route; `none` is the fault on a nil `s.Device`. -/
def Static.Routes (s : Static) : Option (List Route) :=
  match s.Device with
  | none => none
  | some d =>
    some (d.Routes.foldl
      (fun routes route =>
        routes ++ [⟨(net.ParseCIDR route.Network).map (·.2), net.ParseIP route.Gateway⟩])
      [])

/-- The method `Static.Valid` (static.go, 113-115). -/
def Static.Valid (_ : Static) : Bool := true

end address

namespace constants

/-- The containerd namespace for Talos services
(`constants.SystemContainerdNamespace`). -/
def SystemContainerdNamespace : String := "system"

/-- The path to write temporary runtime system related files
(`constants.SystemRunPath`). -/
def SystemRunPath : String := "/run/system"

/-- The path to the system containerd socket
(`constants.SystemContainerdAddress`). -/
def SystemContainerdAddress : String := SystemRunPath ++ "/containerd/containerd.sock"

end constants

namespace containerdrunner

/-- The import options of containerd that the sources pass:
`containerd.WithIndexName`. -/
inductive ImportOpt where
  | WithIndexName (name : String)
  deriving DecidableEq, Repr

/-- The type `ImportRequest` of the containerd runner package, which is not among
the sources, as the sources build it. -/
structure ImportRequest where
  Path : String
  Options : List ImportOpt
  deriving DecidableEq, Repr

/-- The options of `NewImporter` that the sources pass: `WithContainerdAddress`. -/
inductive ImporterOption where
  | WithContainerdAddress (address : String)
  deriving DecidableEq, Repr

/-- The importer `NewImporter(namespace, options...)` builds; the package is not
among the sources, the importer is kept as the arguments it was built with. -/
structure Importer where
  ns : String
  options : List ImporterOption
  deriving DecidableEq, Repr

/-- The function `NewImporter`. -/
def NewImporter (ns : String) (options : List ImporterOption) : Importer :=
  ⟨ns, options⟩

/-- Modelled from the spec: what an import acts on (the importer is not among the
sources): the paths at which an image archive can be read and imported, the
paths the importer has tried, in order, and the images imported, each as the
namespace and the request it came from, in order. -/
structure Store where
  archives : List String
  tried : List String
  images : List (String × ImportRequest)
  deriving DecidableEq, Repr

/-- Modelled from the spec: `Import` of the importer, which is not among the
sources: "given a namespace and a list of `(path, import-options)` pairs, imports
each sequentially; the first failure aborts the remaining imports and is returned
— already-imported images are not rolled back". -/
def Importer.Import (i : Importer) : List ImportRequest → Store → Option String × Store
  | [], st => (none, st)
  | req :: reqs, st =>
    if req.Path ∈ st.archives then
      i.Import reqs
        { st with tried := st.tried ++ [req.Path], images := st.images ++ [(i.ns, req)] }
    else
      (some ("error importing " ++ req.Path), { st with tried := st.tried ++ [req.Path] })

end containerdrunner

namespace services

/-- The configuration `config.Configurator`, as far as the services read it:
`Debug()` and `Machine().Env()`, the environment in the order the loop over it
meets the entries. -/
structure Config where
  Debug : Bool
  Env : List (String × String)
  deriving DecidableEq, Repr

/-- The type `runner.Args`: the launch arguments of a runner. -/
structure Args where
  ID : String
  ProcessArgs : List String
  deriving DecidableEq, Repr

/-- The type `specs.Mount` of the OCI runtime specification. -/
structure Mount where
  Type_ : String
  Destination : String
  Source : String
  Options : List String
  deriving DecidableEq, Repr

/-- The OCI options the services pass: `containerd.WithMemoryLimit` and
`oci.WithMounts`. -/
inductive OCISpecOpt where
  | WithMemoryLimit (limit : Int)
  | WithMounts (mounts : List Mount)
  deriving DecidableEq, Repr

/-- The runner options the services pass. -/
inductive RunnerOption where
  | WithContainerdAddress (address : String)
  | WithContainerImage (image : String)
  | WithEnv (env : List String)
  | WithOCISpecOpts (opts : List OCISpecOpt)
  deriving DecidableEq, Repr

/-- The restart types the services pass: `restart.Forever` and `restart.Once`. -/
inductive RestartType where
  | Forever
  | Once
  deriving DecidableEq, Repr

/-- The restart options the services pass: `restart.WithType`. -/
inductive RestartOption where
  | WithType (t : RestartType)
  deriving DecidableEq, Repr

/-- The runner a service builds, kept as the constructor calls that build it:
`containerd.NewRunner(debug, args, options...)`,
`process.NewRunner(debug, args, options...)` and `restart.New(runner, options...)`. -/
inductive Runner where
  | containerd (debug : Bool) (args : Args) (options : List RunnerOption)
  | process (debug : Bool) (args : Args) (options : List RunnerOption)
  | restart (wrapped : Runner) (options : List RestartOption)
  deriving Repr

/-- The launch arguments a runner carries, those of the wrapped runner for a
restart wrapper. -/
def Runner.args : Runner → Args
  | .containerd _ args _ => args
  | .process _ args _ => args
  | .restart wrapped _ => wrapped.args

/-- The loop `for key, val := range config.Machine().Env()` of both services:
`env = append(env, fmt.Sprintf("%s=%s", key, val))`. -/
def envOf (config : Config) : List String :=
  config.Env.foldl (fun env kv => env ++ [kv.1 ++ "=" ++ kv.2]) []

/-- The method `Trustd.ID` (trustd.go, 31-33). -/
def Trustd.ID (_ : Config) : String := "trustd"

/-- The method `Trustd.PreFunc` (trustd.go, 36-45); `Import` is the importer's
method, which is not among the sources and acts on the machine state `W`. -/
def Trustd.PreFunc {W Err Ctx : Type}
    (Import : containerdrunner.Importer → List containerdrunner.ImportRequest → W →
      Option Err × W)
    (_ : Ctx) (_ : Config) (w : W) : Option Err × W :=
  let importer := containerdrunner.NewImporter constants.SystemContainerdNamespace
    [.WithContainerdAddress constants.SystemContainerdAddress]
  Import importer [⟨"/usr/images/trustd.tar", [.WithIndexName "talos/trustd"]⟩] w

/-- The method `Trustd.Runner` (trustd.go, 62-99): the runner and a nil error. -/
def Trustd.Runner (config : Config) : Runner × Option String :=
  let image := "talos/trustd"
  let args : Args :=
    { ID := Trustd.ID config,
      ProcessArgs := ["/trustd", "--config=" ++ constants.ConfigPath] }
  let mounts : List Mount :=
    [ ⟨"bind", "/tmp", "/tmp", ["rbind", "rshared", "rw"]⟩,
      ⟨"bind", constants.ConfigPath, constants.ConfigPath, ["rbind", "ro"]⟩,
      ⟨"bind", "/etc/kubernetes", "/etc/kubernetes", ["rbind", "ro"]⟩ ]
  let env := envOf config
  (.restart
    (.containerd config.Debug args
      [ .WithContainerdAddress constants.SystemContainerdAddress,
        .WithContainerImage image,
        .WithEnv env,
        .WithOCISpecOpts [.WithMemoryLimit (1000000 * 512), .WithMounts mounts] ])
    [.WithType .Forever], none)

/-- The method `UdevdTrigger.ID` (udevd_trigger.go, 24-26). -/
def UdevdTrigger.ID (_ : Config) : String := "udevd-trigger"

/-- The method `UdevdTrigger.Runner` (udevd_trigger.go, 49-71): the runner and a
nil error. -/
def UdevdTrigger.Runner (config : Config) : Runner × Option String :=
  let args : Args :=
    { ID := UdevdTrigger.ID config,
      ProcessArgs := ["/sbin/udevadm", "trigger"] }
  let env := envOf config
  (.restart (.process config.Debug args [.WithEnv env]) [.WithType .Once], none)

end services

namespace ctrd

/-- Modelled from the spec: a container of the namespace as the container runtime
reports it to the inspector (the inspector package is not among the sources): its
id, its labels, the annotations of its spec, the name of its image, the digest of
its image and its status. -/
structure Info where
  ID : String
  Labels : List (String × String)
  Annotations : List (String × String)
  Image : String
  Digest : String
  Status : String
  deriving DecidableEq, Repr

/-- Modelled from the spec: an entry `Container{id, name, display-name, image,
status, ...}` of the inspection view. -/
structure Container where
  ID : String
  Name : String
  Display : String
  Sandbox : String
  Image : String
  Status : String
  deriving DecidableEq, Repr

/-- Modelled from the spec: `Pod{name, sandbox-id, containers}`. -/
structure Pod where
  Name : String
  Sandbox : String
  Containers : List Container
  deriving DecidableEq, Repr

/-- The identity of a Kubernetes pod: the pod-namespace label, the pod-name label
and the sandbox annotation, which may be absent. -/
abbrev PodKey := String × String × Option String

/-- Modelled from the spec: the pod identity of a container, for a container that
carries both Kubernetes pod labels. -/
def podKey (info : Info) : Option PodKey :=
  match info.Labels.lookup "io.kubernetes.pod.namespace",
        info.Labels.lookup "io.kubernetes.pod.name" with
  | some ns, some name => some (ns, name, info.Annotations.lookup "io.kubernetes.cri.sandbox-id")
  | _, _ => none

/-- The name of the pod a container belongs to: `<namespace>/<name>`, or the id of
a container without the pod labels. -/
def podName (info : Info) : String :=
  match podKey info with
  | some (ns, name, _) => ns ++ "/" ++ name
  | none => info.ID

/-- Modelled from the spec: the sandbox a container shows: the sandbox log
directory in its own annotations or, for a container that names only its sandbox,
in the annotations of a container of the namespace `all` with the same sandbox id
(`TestPodsK8s` expects "sandbox" for both containers); empty when there is none. -/
def sandboxOf (all : List Info) (info : Info) : String :=
  match info.Annotations.lookup "io.kubernetes.cri.sandbox-log-directory" with
  | some dir => dir
  | none =>
    match info.Annotations.lookup "io.kubernetes.cri.sandbox-id" with
    | none => ""
    | some id =>
      ((all.filter fun other =>
          other.Annotations.lookup "io.kubernetes.cri.sandbox-id" = some id).findSome?
        fun other => other.Annotations.lookup "io.kubernetes.cri.sandbox-log-directory").getD ""

/-- Modelled from the spec: the entry of a container of the namespace `all`.  In a
pod a container labelled with a container name `c` is named `c` and displayed as
`<namespace>/<name>:c`, one without is named by its id and displayed as
`<namespace>/<name>`; a container without the pod labels has its id as name and
display name.  A listing resolves the image name, a lookup gives the digest
(`TestContainerK8s`: "image is not resolved"). -/
def containerInfo (all : List Info) (resolve : Bool) (info : Info) : Container :=
  match podKey info, info.Labels.lookup "io.kubernetes.container.name" with
  | some (ns, name, _), some c =>
    ⟨info.ID, c, ns ++ "/" ++ name ++ ":" ++ c, sandboxOf all info,
      if resolve then info.Image else info.Digest, info.Status⟩
  | some (ns, name, _), none =>
    ⟨info.ID, info.ID, ns ++ "/" ++ name, sandboxOf all info,
      if resolve then info.Image else info.Digest, info.Status⟩
  | none, _ =>
    ⟨info.ID, info.ID, info.ID, sandboxOf all info,
      if resolve then info.Image else info.Digest, info.Status⟩

/-- The containers gathered for one pod: the pod identity, absent for a container
without the pod labels, the first container met and those merged after it. -/
structure Group where
  key : Option PodKey
  first : Info
  rest : List Info
  deriving DecidableEq, Repr

/-- The containers of a group, in the order met. -/
def Group.members (g : Group) : List Info := g.first :: g.rest

/-- A group is well formed when its containers all have the pod identity of the
group, and a group without a pod identity holds one container. -/
def Group.wellFormed (g : Group) : Prop :=
  (∀ i ∈ g.members, podKey i = g.key) ∧ (g.key = none → g.rest = [])

/-- Modelled from the spec: a container joins the pods gathered so far:
"containers sharing a Kubernetes pod-name/namespace label and sandbox annotation
are merged into one Pod; containers without that label form a singleton Pod keyed
by their own id". -/
def addToPods (info : Info) : List Group → List Group
  | [] => [⟨podKey info, info, []⟩]
  | g :: gs =>
    if podKey info ≠ none ∧ g.key = podKey info then
      { g with rest := g.rest ++ [info] } :: gs
    else g :: addToPods info gs

/-- The containers of the namespace join the pods one by one, in the order the
runtime lists them. -/
def groupInto : List Info → List Group → List Group
  | [], gs => gs
  | info :: infos, gs => groupInto infos (addToPods info gs)

/-- The groups of the containers of a namespace. -/
def groups (infos : List Info) : List Group := groupInto infos []

/-- The pod of a group of containers of the namespace `all`. -/
def toPod (all : List Info) (g : Group) : Pod :=
  ⟨podName g.first, sandboxOf all g.first, g.members.map (containerInfo all true)⟩

/-- Modelled from the spec: the inspector of a namespace (the inspector package
is not among the sources), with the containers the runtime lists in it. -/
structure Inspector where
  containers : List Info
  deriving DecidableEq, Repr

/-- Modelled from the spec: `Pods()` of the inspector: the pods of the containers
of its namespace, and a nil error. -/
def Inspector.Pods (i : Inspector) : List Pod × Option String :=
  ((groups i.containers).map (toPod i.containers), none)

/-- The container entries a listing shows, pod after pod. -/
def Inspector.listed (i : Inspector) : List Container :=
  i.Pods.1.flatMap (·.Containers)

/-- Modelled from the spec: `Container(name)` of the inspector: it "accepts either
a bare id or a "pod-name"/"pod-name:container-name" composite key and returns the
single matching entry or a not-found (nil, no error) result".  The composite key
of a container is its display name; it is looked for first, then the bare id. -/
def Inspector.Container (i : Inspector) (name : String) :
    Option Container × Option String :=
  match (i.containers.map (containerInfo i.containers false)).find?
      (fun c => c.Display = name) with
  | some c => (some c, none)
  | none =>
    ((i.containers.map (containerInfo i.containers false)).find? (fun c => c.ID = name), none)

/-- The containers of `TestPodsK8s` and `TestContainerK8s` (containerd_test.go,
175-209): two containers of the pod ns1/fun, the second labelled with the
container name run. -/
def k8sContainers : Inspector :=
  ⟨[ ⟨"test1",
      [("io.kubernetes.pod.name", "fun"), ("io.kubernetes.pod.namespace", "ns1")],
      [("io.kubernetes.cri.sandbox-log-directory", "sandbox"),
       ("io.kubernetes.cri.sandbox-id",
        "c888d69b73b5b444c2b0bd70da28c3da102b0aeb327f3a297626e2558def327f")],
      "docker.io/library/busybox:1.30.1",
      "sha256:4b6ad3a68d34da29bf7c8ccb5d355ba8b4babcad1f99798204e7abb43e54ee3d", "RUNNING"⟩,
    ⟨"test2",
      [("io.kubernetes.pod.name", "fun"), ("io.kubernetes.pod.namespace", "ns1"),
       ("io.kubernetes.container.name", "run")],
      [("io.kubernetes.cri.sandbox-id",
        "c888d69b73b5b444c2b0bd70da28c3da102b0aeb327f3a297626e2558def327f")],
      "docker.io/library/busybox:1.30.1",
      "sha256:4b6ad3a68d34da29bf7c8ccb5d355ba8b4babcad1f99798204e7abb43e54ee3d", "RUNNING"⟩ ]⟩

/-- A namespace with two sandbox containers of pods of the same namespace and
name, an old sandbox and the one that replaced it: neither carries a container
name. -/
def twoSandboxes : Inspector :=
  ⟨[ ⟨"old", [("io.kubernetes.pod.name", "fun"), ("io.kubernetes.pod.namespace", "ns1")],
      [("io.kubernetes.cri.sandbox-log-directory", "/var/log/pods/old"),
       ("io.kubernetes.cri.sandbox-id", "old")], "pause", "sha256:0", "STOPPED"⟩,
    ⟨"new", [("io.kubernetes.pod.name", "fun"), ("io.kubernetes.pod.namespace", "ns1")],
      [("io.kubernetes.cri.sandbox-log-directory", "/var/log/pods/new"),
       ("io.kubernetes.cri.sandbox-id", "new")], "pause", "sha256:0", "RUNNING"⟩ ]⟩

end ctrd

namespace net

/-- Following the claim's words, not the source: byte `i` of the `n`-bit prefix
mask.  Its bit `k`, the most significant first, is bit `8 * i + k` of the mask,
which is set exactly when it lies among the first `n` bits. -/
def prefixByte (n i : Nat) : Nat :=
  (if 8 * i < n then 128 else 0) + (if 8 * i + 1 < n then 64 else 0)
    + (if 8 * i + 2 < n then 32 else 0) + (if 8 * i + 3 < n then 16 else 0)
    + (if 8 * i + 4 < n then 8 else 0) + (if 8 * i + 5 < n then 4 else 0)
    + (if 8 * i + 6 < n then 2 else 0) + (if 8 * i + 7 < n then 1 else 0)

/-- Following the claim's words, not the source: the `n`-bit prefix mask of `len`
bytes, whose first `n` bits are set and whose other bits are clear. -/
def prefixMask (n len : Nat) : IPMask := (List.range len).map (prefixByte n)

end net

namespace aws

/-- The constant `AWSPKCS7Endpoint` (aws.go, 28). -/
def AWSPKCS7Endpoint : String :=
  "http://169.254.169.254/latest/dynamic/instance-identity/pkcs7"

/-- The constant `AWSPublicCertificate` (aws.go, 31-48). -/
def AWSPublicCertificate : String :=
  "-----BEGIN CERTIFICATE-----\n"
  ++ "MIIC7TCCAq0CCQCWukjZ5V4aZzAJBgcqhkjOOAQDMFwxCzAJBgNVBAYTAlVTMRkw\n"
  ++ "FwYDVQQIExBXYXNoaW5ndG9uIFN0YXRlMRAwDgYDVQQHEwdTZWF0dGxlMSAwHgYD\n"
  ++ "VQQKExdBbWF6b24gV2ViIFNlcnZpY2VzIExMQzAeFw0xMjAxMDUxMjU2MTJaFw0z\n"
  ++ "ODAxMDUxMjU2MTJaMFwxCzAJBgNVBAYTAlVTMRkwFwYDVQQIExBXYXNoaW5ndG9u\n"
  ++ "IFN0YXRlMRAwDgYDVQQHEwdTZWF0dGxlMSAwHgYDVQQKExdBbWF6b24gV2ViIFNl\n"
  ++ "cnZpY2VzIExMQzCCAbcwggEsBgcqhkjOOAQBMIIBHwKBgQCjkvcS2bb1VQ4yt/5e\n"
  ++ "ih5OO6kK/n1Lzllr7D8ZwtQP8fOEpp5E2ng+D6Ud1Z1gYipr58Kj3nssSNpI6bX3\n"
  ++ "VyIQzK7wLclnd/YozqNNmgIyZecN7EglK9ITHJLP+x8FtUpt3QbyYXJdmVMegN6P\n"
  ++ "hviYt5JH/nYl4hh3Pa1HJdskgQIVALVJ3ER11+Ko4tP6nwvHwh6+ERYRAoGBAI1j\n"
  ++ "k+tkqMVHuAFcvAGKocTgsjJem6/5qomzJuKDmbJNu9Qxw3rAotXau8Qe+MBcJl/U\n"
  ++ "hhy1KHVpCGl9fueQ2s6IL0CaO/buycU1CiYQk40KNHCcHfNiZbdlx1E9rpUp7bnF\n"
  ++ "lRa2v1ntMX3caRVDdbtPEWmdxSCYsYFDk4mZrOLBA4GEAAKBgEbmeve5f8LIE/Gf\n"
  ++ "MNmP9CM5eovQOGx5ho8WqD+aTebs+k2tn92BBPqeZqpWRa5P/+jrdKml1qx4llHW\n"
  ++ "MXrs3IgIb6+hUIB+S8dz8/mmO0bpr76RoZVCXYab2CZedFut7qc3WUH9+EUAH5mw\n"
  ++ "vSeDCOUMYQR7R9LINYwouHIziqQYMAkGByqGSM44BAMDLwAwLAIUWXBlk40xTwSw\n"
  ++ "7HX32MxXYruse9ACFBNGmdX2ZBrVNGrN9N2f6ROk0k9K\n"
  ++ "-----END CERTIFICATE-----"

/-- The constant `http.StatusOK` of the Go standard library. -/
def StatusOK : Int := 200

/-- The conversion `[]byte(s)` of a Go string whose characters are all ASCII, as
those of the constants of `aws.go` are: one byte for each character. -/
def bytes (s : String) : List Nat := s.toList.map Char.toNat

/-- The type `http.Response` of the Go standard library, as far as `IsEC2` reads
it; `Body` is the type of the response body, an `io.ReadCloser`. -/
structure Response (Body : Type) where
  StatusCode : Int
  Body : Body

/-- The type `pem.Block` of the Go standard library, as far as `IsEC2` reads
it. -/
structure Block where
  Type_ : String
  Bytes : List Nat
  deriving DecidableEq, Repr

/-- The type `pkcs7.PKCS7` of github.com/fullsailor/pkcs7: the list of
certificates, which `IsEC2` assigns, and the other fields, which it leaves
alone. -/
structure PKCS7 (Cert Rest : Type) where
  Certificates : List Cert
  rest : Rest

/-- The calls `IsEC2` makes outside the repository.  `Get`, `ReadAll` and `Close`
act on the world `W`; `Decode` (of `pem`, nil block as `none`), `Parse` (of
`pkcs7`), `ParseCertificate` (of `x509`) and `Verify` (of `pkcs7`, nil error as
`none`) are computations on their arguments. -/
structure Env (W Body Cert Rest Err : Type) where
  Get : String → W → Except Err (Response Body) × W
  ReadAll : Body → W → Except Err (List Nat) × W
  Close : Body → W → W
  Decode : List Nat → Option Block
  Parse : List Nat → Except Err (PKCS7 Cert Rest)
  ParseCertificate : List Nat → Except Err Cert
  Verify : PKCS7 Cert Rest → Option Err

/-- The function `IsEC2` (aws.go, 56-116): the named result `b`, false unless the
last statement is reached, and the world it leaves.  Once `http.Get` has
succeeded the deferred `resp.Body.Close()` runs at every return.  What the
function prints is left out. -/
def IsEC2 {W Body Cert Rest Err : Type} (env : Env W Body Cert Rest Err) (w : W) : Bool × W :=
  match env.Get AWSPKCS7Endpoint w with
  | (.error _, w1) => (false, w1)
  | (.ok resp, w1) =>
    if resp.StatusCode ≠ StatusOK then (false, env.Close resp.Body w1)
    else
      match env.ReadAll resp.Body w1 with
      | (.error _, w2) => (false, env.Close resp.Body w2)
      | (.ok data, w2) =>
        let b :=
          match env.Decode
              (bytes "-----BEGIN PKCS7-----\n" ++ data ++ bytes "\n-----END PKCS7-----\n") with
          | none => false
          | some pemBlock =>
            match env.Parse pemBlock.Bytes with
            | .error _ => false
            | .ok p7 =>
              match env.Decode (bytes AWSPublicCertificate) with
              | none => false
              | some pemBlock =>
                match env.ParseCertificate pemBlock.Bytes with
                | .error _ => false
                | .ok certificate =>
                  match env.Verify { p7 with Certificates := [certificate] } with
                  | some _ => false
                  | none => true
        (b, env.Close resp.Body w2)

end aws

namespace stream

/-- The type `Options` (stream.go, 16-18); `Size` is a Go `int`. -/
structure Options where
  Size : Int
  deriving DecidableEq, Repr

/-- The type `Option` (stream.go, 21), a function that updates the options; it
is named `Setter` here, after the parameter of `NewChunker`. -/
abbrev Setter := Options → Options

/-- The function `Size` (stream.go, 24-28). -/
def Size (s : Int) : Setter := fun args => { args with Size := s }

/-- What one call `source.Read(buf)` returns: the `n` bytes it has put at the
start of `buf`, and the error, nil as `none`. -/
structure ReadResult where
  data : List Nat
  err : Option String
  deriving DecidableEq, Repr

/-- The interface `Source` (stream.go, 37-39) as the goroutine of `Read` meets
it: what the calls of `Read` return, in order.  A call after the last of the list
does not return. -/
structure Source where
  reads : List ReadResult
  deriving DecidableEq, Repr

/-- The type `Stream` (stream.go, 31-34). -/
structure Stream where
  source : Source
  options : Options
  deriving DecidableEq, Repr

/-- The function `NewChunker` (stream.go, 42-55). -/
def NewChunker (source : Source) (setters : List Setter) : Stream :=
  ⟨source, setters.foldl (fun opts setter => setter opts) ⟨1024⟩⟩

/-- The context handed to `Read`, as the goroutine meets it: whether the `k`-th
`select`, counted from 0, receives from `ctx.Done()`. -/
abbrev Context := Nat → Bool

/-- What the goroutine of `Read` has done when it has come to rest: the chunks it
has sent on the channel, in order, whether the deferred `c.source.Close()` and
`close(ch)` have run, and whether it came to rest in a panic of the run time. -/
structure Delivery where
  chunks : List (List Nat)
  sourceClosed : Bool
  channelClosed : Bool
  panicked : Bool
  deriving DecidableEq, Repr

/-- The `for` loop of the goroutine of `Read` (stream.go, 67-91) with a buffer of
`size` bytes, before the `k`-th `select`.  An error of `source.Read` breaks the
loop before anything is sent; `buf[:n]` panics when `n` exceeds the buffer. -/
def readLoop (size : Nat) (ctx : Context) : Nat → List ReadResult → Delivery
  | k, [] => if ctx k then ⟨[], true, true, false⟩ else ⟨[], false, false, false⟩
  | k, r :: rest =>
    if ctx k then ⟨[], true, true, false⟩
    else if r.err ≠ none then ⟨[], true, true, false⟩
    else if r.data.length = 0 then readLoop size ctx (k + 1) rest
    else if r.data.length > size then ⟨[], true, true, true⟩
    else if ctx (k + 1) then ⟨[], true, true, false⟩
    else
      let d := readLoop size ctx (k + 2) rest
      { d with chunks := r.data :: d.chunks }

/-- The method `Stream.Read` (stream.go, 58-97): what its goroutine does, every
chunk sent being received.  `make([]byte, c.options.Size)` panics on a negative
size. -/
def Stream.Read (c : Stream) (ctx : Context) : Delivery :=
  if c.options.Size < 0 then ⟨[], true, true, true⟩
  else readLoop c.options.Size.toNat ctx 0 c.source.reads

end stream

namespace cri

/-- The type `runtimeapi.ImageSpec` of k8s.io/cri-api, as far as `images.go`
reads it. -/
structure ImageSpec where
  Image : String
  deriving DecidableEq, Repr

/-- The type `runtimeapi.Image` of k8s.io/cri-api; `Size_` is a `uint64`. -/
structure Image where
  Id : String
  RepoTags : List String
  RepoDigests : List String
  Size_ : Nat
  Username : String
  deriving DecidableEq, Repr

/-- The type `runtimeapi.ImageStatusRequest` of k8s.io/cri-api, as `ImageStatus`
builds it. -/
structure ImageStatusRequest where
  Image : Option ImageSpec
  deriving DecidableEq, Repr

/-- The type `runtimeapi.ImageStatusResponse` of k8s.io/cri-api, as far as
`ImageStatus` reads it. -/
structure ImageStatusResponse where
  Image : Option Image
  deriving DecidableEq, Repr

/-- The errors `ImageStatus` builds with github.com/pkg/errors: the format and
its argument, and for `Wrapf` the error that is wrapped. -/
inductive Error (E : Type) where
  | Wrapf (err : E) (format : String) (arg : String)
  | Errorf (format : String) (arg : String)
  deriving DecidableEq, Repr

/-- The type `Client` of package `cri`, which is not among the sources, as far as
`ImageStatus` reads it: the method `ImageStatus` of its `imagesClient`. -/
structure Client (Ctx E : Type) where
  imagesClient : Ctx → ImageStatusRequest → Except E ImageStatusResponse

/-- The method `Client.ImageStatus` (images.go, 40-55): the image and the error
it returns, nil as `none`.  The outer `none` is the fault of the run time on a
nil pointer: both error messages read `image.Image`. -/
def Client.ImageStatus {Ctx E : Type} (c : Client Ctx E) (ctx : Ctx)
    (image : Option ImageSpec) : Option (Option Image × Option (Error E)) :=
  match c.imagesClient ctx ⟨image⟩ with
  | .error err =>
    match image with
    | none => none
    | some spec => some (none, some (.Wrapf err "ImageStatus %q from image service failed" spec.Image))
  | .ok resp =>
    match resp.Image with
    | some img =>
      if img.Id = "" ∨ img.Size_ = 0 then
        match image with
        | none => none
        | some spec => some (none, some (.Errorf "Id or size of image %q is not set" spec.Image))
      else some (resp.Image, none)
    | none => some (resp.Image, none)

end cri

/-! ## Theorems -/

namespace phase

section runner

variable {W Cfg T Err : Type}

theorem mem_insertAt {α : Type} (a b : α) : ∀ (n : Nat) (l : List α),
    a ∈ insertAt n b l ↔ a = b ∨ a ∈ l
  | 0, l => by simp [insertAt]
  | _ + 1, [] => by simp [insertAt]
  | n + 1, c :: l => by
    simp only [insertAt, List.mem_cons, mem_insertAt a b n l]
    tauto

/-- Every task of a phase has its finish step in the schedule. -/
theorem finish_mem_interleave : ∀ (ts : List T) (i : Nat) (picks : List Nat) (j : Nat) (t : T),
    ts[j]? = some t → Step.finish (i + j) t ∈ interleave i ts picks
  | [], _, _, _, _, h => by simp at h
  | s :: ts, i, picks, 0, t, h => by
    simp only [List.getElem?_cons_zero, Option.some.injEq] at h
    subst h
    simp [interleave, mem_insertAt]
  | s :: ts, i, picks, j + 1, t, h => by
    simp only [List.getElem?_cons_succ] at h
    have ih := finish_mem_interleave ts (i + 1) (picks.drop 2) j t h
    simp only [interleave, mem_insertAt]
    right; right
    have e : i + (j + 1) = i + 1 + j := by omega
    rw [e]
    exact ih

/-- The events of a phase carry the number of the phase. -/
theorem runSteps_phase (exec : T → Option Cfg → W → Option Err × W) (config : Option Cfg)
    (k : Nat) : ∀ (steps : List (Step T)) (w : W) (ev : Event Err),
    ev ∈ (runSteps exec config k steps w).events → ev.phase = k
  | [], _, _, h => by simp [runSteps] at h
  | .start i :: rest, w, ev, h => by
    simp only [runSteps, List.mem_cons] at h
    rcases h with h | h
    · subst h; rfl
    · exact runSteps_phase exec config k rest w ev h
  | .finish i t :: rest, w, ev, h => by
    simp only [runSteps, List.mem_cons] at h
    rcases h with h | h
    · subst h; rfl
    · exact runSteps_phase exec config k rest _ ev h

/-- A task whose finish step is scheduled returns. -/
theorem runSteps_returned (exec : T → Option Cfg → W → Option Err × W) (config : Option Cfg)
    (k i : Nat) (t : T) : ∀ (steps : List (Step T)) (w : W),
    Step.finish i t ∈ steps →
      ∃ err, Event.returned k i err ∈ (runSteps exec config k steps w).events
  | [], _, h => by simp at h
  | .start j :: rest, w, h => by
    simp only [List.mem_cons, reduceCtorEq, false_or] at h
    obtain ⟨err, he⟩ := runSteps_returned exec config k i t rest w h
    exact ⟨err, by simp [runSteps, he]⟩
  | .finish j s :: rest, w, h => by
    simp only [List.mem_cons] at h
    rcases h with h | h
    · injection h with h1 h2
      subst h1
      exact ⟨(exec s config w).1, by simp [runSteps]⟩
    · obtain ⟨err, he⟩ := runSteps_returned exec config k i t rest (exec s config w).2 h
      exact ⟨err, by simp [runSteps, he]⟩

/-- The error of a phase is the first error among its events. -/
theorem runSteps_err (exec : T → Option Cfg → W → Option Err × W) (config : Option Cfg)
    (k : Nat) : ∀ (steps : List (Step T)) (w : W),
    (runSteps exec config k steps w).err
      = (runSteps exec config k steps w).events.findSome? Event.err
  | [], _ => by simp [runSteps]
  | .start i :: rest, w => by
    simp [runSteps, Event.err, runSteps_err exec config k rest w]
  | .finish i t :: rest, w => by
    simp only [runSteps, List.findSome?_cons, Event.err]
    cases h : (exec t config w).1 with
    | none => simp [runSteps_err exec config k rest (exec t config w).2]
    | some e => simp

theorem runFrom_phase_ge (exec : T → Option Cfg → W → Option Err × W) (config : Option Cfg)
    (sched : Nat → List Nat) : ∀ (ps : List (Phase T)) (k : Nat) (w : W) (ev : Event Err),
    ev ∈ (runFrom exec config sched k ps w).events → k ≤ ev.phase
  | [], _, _, _, h => by simp [runFrom] at h
  | p :: ps, k, w, ev, h => by
    simp only [runFrom] at h
    split at h
    · exact (runSteps_phase exec config k _ w ev h).ge
    · simp only [List.mem_append] at h
      rcases h with h | h
      · exact (runSteps_phase exec config k _ w ev h).ge
      · have := runFrom_phase_ge exec config sched ps (k + 1) _ ev h
        omega

/-- The error of a run is the first error among its events. -/
theorem runFrom_err (exec : T → Option Cfg → W → Option Err × W) (config : Option Cfg)
    (sched : Nat → List Nat) : ∀ (ps : List (Phase T)) (k : Nat) (w : W),
    (runFrom exec config sched k ps w).err
      = (runFrom exec config sched k ps w).events.findSome? Event.err
  | [], _, _ => by simp [runFrom]
  | p :: ps, k, w => by
    have hp := runSteps_err exec config k (interleave 0 p.tasks (sched k)) w
    simp only [runFrom]
    split
    · next err h => simp only [runPhase] at h ⊢; rw [← hp, h]
    · next h =>
      simp only [runPhase] at h ⊢
      rw [List.findSome?_append, ← hp, h]
      simpa using runFrom_err exec config sched ps (k + 1) _

theorem runFrom_sorted (exec : T → Option Cfg → W → Option Err × W) (config : Option Cfg)
    (sched : Nat → List Nat) : ∀ (ps : List (Phase T)) (k : Nat) (w : W),
    ((runFrom exec config sched k ps w).events.map Event.phase).Pairwise (· ≤ ·)
  | [], _, _ => by simp [runFrom]
  | p :: ps, k, w => by
    have hk : ∀ ev ∈ (runPhase exec config k p (sched k) w).events, ev.phase = k :=
      fun ev h => runSteps_phase exec config k _ w ev h
    have hsame : ((runPhase exec config k p (sched k) w).events.map Event.phase).Pairwise
        (· ≤ ·) := by
      rw [List.pairwise_map]
      exact List.pairwise_of_forall_mem_list fun a ha b hb => by rw [hk a ha, hk b hb]
    simp only [runFrom]
    split
    · exact hsame
    · rw [List.map_append, List.pairwise_append]
      refine ⟨hsame, runFrom_sorted exec config sched ps (k + 1) _, ?_⟩
      intro a ha b hb
      simp only [List.mem_map] at ha hb
      obtain ⟨x, hx, rfl⟩ := ha
      obtain ⟨y, hy, rfl⟩ := hb
      have := runFrom_phase_ge exec config sched ps (k + 1) _ y hy
      rw [hk x hx]
      omega

/-- Before a task of phase `k + 1` starts, every task of phase `k` has returned. -/
theorem runFrom_barrier (exec : T → Option Cfg → W → Option Err × W) (config : Option Cfg)
    (sched : Nat → List Nat) : ∀ (ps : List (Phase T)) (k0 : Nat) (w : W)
    (pre post : List (Event Err)) (k t : Nat),
    (runFrom exec config sched k0 ps w).events = pre ++ Event.started (k + 1) t :: post →
    k0 ≤ k →
    ∃ p, ps[k - k0]? = some p ∧
      ∀ i, i < p.tasks.length → ∃ err, Event.returned k i err ∈ pre
  | [], _, _, pre, post, k, t, h, _ => by simp [runFrom] at h
  | p :: ps, k0, w, pre, post, k, t, h, hk => by
    have hph : ∀ ev ∈ (runPhase exec config k0 p (sched k0) w).events, ev.phase = k0 :=
      fun ev h => runSteps_phase exec config k0 _ w ev h
    simp only [runFrom] at h
    split at h
    · have := hph (Event.started (k + 1) t) (by simp only at h; rw [h]; simp)
      simp only [Event.phase] at this
      omega
    · simp only at h
      have key : ∃ a, pre = (runPhase exec config k0 p (sched k0) w).events ++ a ∧
          (runFrom exec config sched (k0 + 1) ps
            (runPhase exec config k0 p (sched k0) w).world).events
            = a ++ Event.started (k + 1) t :: post := by
        rcases List.append_eq_append_iff.1 h with ⟨a, h1, h2⟩ | ⟨c, h1, h2⟩
        · exact ⟨a, h1, h2⟩
        · cases c with
          | nil => exact ⟨[], by simpa using h1.symm, by simpa using h2.symm⟩
          | cons x c =>
            simp only [List.cons_append, List.cons.injEq] at h2
            have := hph (Event.started (k + 1) t) (by rw [h1, h2.1]; simp)
            simp only [Event.phase] at this
            omega
      obtain ⟨a, hpre, hrest⟩ := key
      rcases Nat.eq_or_lt_of_le hk with heq | hlt
      · subst heq
        refine ⟨p, by simp, fun i hi => ?_⟩
        have hf := finish_mem_interleave p.tasks 0 (sched k0) i (p.tasks.get ⟨i, hi⟩)
          (by simp [List.getElem?_eq_getElem hi])
        rw [Nat.zero_add] at hf
        obtain ⟨err, he⟩ := runSteps_returned exec config k0 i _ _ w hf
        exact ⟨err, by rw [hpre]; exact List.mem_append_left _ he⟩
      · obtain ⟨q, hq, hall⟩ := runFrom_barrier exec config sched ps (k0 + 1) _ a post k t
          hrest hlt
        refine ⟨q, ?_, fun i hi => ?_⟩
        · have e : k - k0 = (k - (k0 + 1)) + 1 := by omega
          rw [e, List.getElem?_cons_succ]
          exact hq
        · obtain ⟨err, he⟩ := hall i hi
          exact ⟨err, by rw [hpre]; exact List.mem_append_right _ he⟩

/-- A task of phase `k` that returns an error ends the run at phase `k`. -/
theorem runFrom_error_stops (exec : T → Option Cfg → W → Option Err × W)
    (config : Option Cfg) (sched : Nat → List Nat) : ∀ (ps : List (Phase T)) (k0 : Nat) (w : W)
    (k t : Nat) (e : Err),
    Event.returned k t (some e) ∈ (runFrom exec config sched k0 ps w).events →
    ∀ ev ∈ (runFrom exec config sched k0 ps w).events, ev.phase ≤ k
  | [], _, _, _, _, _, h => by simp [runFrom] at h
  | p :: ps, k0, w, k, t, e, h => by
    have hph : ∀ ev ∈ (runPhase exec config k0 p (sched k0) w).events, ev.phase = k0 :=
      fun ev h => runSteps_phase exec config k0 _ w ev h
    have hge := runFrom_phase_ge exec config sched (p :: ps) k0 w _ h
    simp only [Event.phase] at hge
    have herr := runSteps_err exec config k0 (interleave 0 p.tasks (sched k0)) w
    simp only [runFrom] at h ⊢
    split at h
    · intro ev hev
      rw [hph ev hev]
      exact hge
    · next h1 =>
      simp only [List.mem_append] at h ⊢
      have hnone : ∀ x ∈ (runPhase exec config k0 p (sched k0) w).events, x.err = none := by
        simp only [runPhase] at h1 ⊢
        rw [herr] at h1
        exact List.findSome?_eq_none_iff.1 h1
      rcases h with h | h
      · have := hnone _ h
        simp [Event.err] at this
      · intro ev hev
        rcases hev with hev | hev
        · rw [hph ev hev]
          exact hge
        · exact runFrom_error_stops exec config sched ps (k0 + 1) _ k t e h ev hev

/-- C1. Run executes the phases in the order they were added (along the events,
the phase numbers never decrease), and whenever a task of phase `k + 1` starts,
every task of phase `k` has already returned. -/
theorem Run_phases_in_order (exec : T → Option Cfg → W → Option Err × W)
    (sched : Nat → List Nat) (r : Runner Cfg T) (w : W) (pre post : List (Event Err))
    (k t : Nat)
    (h : (r.Run exec sched w).events = pre ++ Event.started (k + 1) t :: post) :
    ((r.Run exec sched w).events.map Event.phase).Pairwise (· ≤ ·) ∧
    ∃ p, r.phases[k]? = some p ∧
      ∀ i, i < p.tasks.length → ∃ err, Event.returned k i err ∈ pre :=
  ⟨runFrom_sorted exec r.config sched r.phases 0 w,
    runFrom_barrier exec r.config sched r.phases 0 w pre post k t h (Nat.zero_le k)⟩

/-- C2. If a task of phase `k` returns an error, Run returns an error, the first
one a task returned, and no task of a later phase is executed. -/
theorem Run_error_stops (exec : T → Option Cfg → W → Option Err × W)
    (sched : Nat → List Nat) (r : Runner Cfg T) (w : W) (k t : Nat) (e : Err)
    (h : Event.returned k t (some e) ∈ (r.Run exec sched w).events) :
    (∃ e1, (r.Run exec sched w).err = some e1) ∧
    (r.Run exec sched w).err = (r.Run exec sched w).events.findSome? Event.err ∧
    ∀ ev ∈ (r.Run exec sched w).events, ev.phase ≤ k := by
  have herr := runFrom_err exec r.config sched r.phases 0 w
  refine ⟨?_, herr, runFrom_error_stops exec r.config sched r.phases 0 w k t e h⟩
  simp only [Runner.Run]
  rw [herr]
  cases hf : (runFrom exec r.config sched 0 r.phases w).events.findSome? Event.err with
  | some e1 => exact ⟨e1, rfl⟩
  | none =>
    have := List.findSome?_eq_none_iff.1 hf _ h
    simp [Event.err] at this

/-- C1 at a concrete run: the first task of the second phase starts after both
tasks of the first phase returned. -/
theorem Run_phases_in_order_witness :
    (sampleRunner.Run sampleExec (fun _ => [1, 0, 1, 1]) 0).events
        = [Event.started 0 0, Event.started 0 1, Event.returned 0 0 none,
            Event.returned 0 1 none]
          ++ Event.started (0 + 1) 0
            :: [Event.started 1 1, Event.returned 1 0 (some "task failed"),
                Event.returned 1 1 none] ∧
    (((sampleRunner.Run sampleExec (fun _ => [1, 0, 1, 1]) 0).events.map Event.phase).Pairwise
        (· ≤ ·) ∧
      ∃ p, sampleRunner.phases[0]? = some p ∧
        ∀ i, i < p.tasks.length → ∃ err, Event.returned 0 i err ∈
          [Event.started 0 0, Event.started 0 1, Event.returned 0 0 none,
            Event.returned 0 1 (none : Option String)]) :=
  ⟨by decide, Run_phases_in_order sampleExec (fun _ => [1, 0, 1, 1]) sampleRunner 0
    [Event.started 0 0, Event.started 0 1, Event.returned 0 0 none, Event.returned 0 1 none]
    [Event.started 1 1, Event.returned 1 0 (some "task failed"), Event.returned 1 1 none] 0 0
    (by decide)⟩

/-- C2 at a concrete run: a task of the second phase fails, the run fails and the
third phase is not executed. -/
theorem Run_error_stops_witness :
    Event.returned 1 0 (some "task failed")
        ∈ (sampleRunner.Run sampleExec (fun _ => [1, 0, 1, 1]) 0).events ∧
    ((∃ e1, (sampleRunner.Run sampleExec (fun _ => [1, 0, 1, 1]) 0).err = some e1) ∧
      (sampleRunner.Run sampleExec (fun _ => [1, 0, 1, 1]) 0).err
        = (sampleRunner.Run sampleExec (fun _ => [1, 0, 1, 1]) 0).events.findSome? Event.err ∧
      ∀ ev ∈ (sampleRunner.Run sampleExec (fun _ => [1, 0, 1, 1]) 0).events, ev.phase ≤ 1) :=
  ⟨by decide, Run_error_stops sampleExec (fun _ => [1, 0, 1, 1]) sampleRunner 0 1 0
    "task failed" (by decide)⟩

end runner

end phase

namespace v1alpha1

open phase

section operations

variable {W Cfg Content Dev Req Err : Type}

/-- The calls of `Boot`, case by case: the run is cut at the first failing call. -/
theorem Boot_cases (env : Env W Cfg Content Dev Req Err) (w : W) :
    (∃ e, (Boot env w).err = some e ∧ (Boot env w).calls = [.NewRunner none (some e)]) ∨
    (∃ e, (Boot env w).err = some e ∧ (Boot env w).calls =
      [.NewRunner none none, .Add bootPhasesEarly, .Run earlyRunner (some e)]) ∨
    (∃ e, (Boot env w).err = some e ∧ (Boot env w).calls =
      [.NewRunner none none, .Add bootPhasesEarly, .Run earlyRunner none,
        .FromFile constants.ConfigPath (.error e)]) ∨
    (∃ e content, (Boot env w).err = some e ∧ (Boot env w).calls =
      [.NewRunner none none, .Add bootPhasesEarly, .Run earlyRunner none,
        .FromFile constants.ConfigPath (.ok content), .New content (.error e)]) ∨
    (∃ e content config, (Boot env w).err = some e ∧ (Boot env w).calls =
      [.NewRunner none none, .Add bootPhasesEarly, .Run earlyRunner none,
        .FromFile constants.ConfigPath (.ok content), .New content (.ok config),
        .NewRunner (some config) (some e)]) ∨
    (∃ err content config, (Boot env w).err = err ∧ (Boot env w).calls =
      [.NewRunner none none, .Add bootPhasesEarly, .Run earlyRunner none,
        .FromFile constants.ConfigPath (.ok content), .New content (.ok config),
        .NewRunner (some config) none, .Add bootPhasesLate, .Run (lateRunner config) err]) := by
  rcases h1 : env.NewRunner none w with ⟨_ | e, w1⟩
  · rcases h2 : env.Run earlyRunner w1 with ⟨_ | e, w2⟩
    · rcases h3 : env.FromFile constants.ConfigPath w2 with ⟨e | content, w3⟩
      · simp [Boot, bootLate, earlyRunner, h1, h2, h3] at *
      · rcases h4 : env.New content w3 with ⟨e | config, w4⟩
        · simp [Boot, bootLate, earlyRunner, h1, h2, h3, h4] at *
        · rcases h5 : env.NewRunner (some config) w4 with ⟨_ | e, w5⟩
          · simp [Boot, bootLate, earlyRunner, lateRunner, h1, h2, h3, h4, h5] at *
          · simp [Boot, bootLate, earlyRunner, h1, h2, h3, h4, h5] at *
    · simp [Boot, earlyRunner, h1, h2] at *
  · simp [Boot, h1]

/-- Splitting a list at an element, one position at a time. -/
theorem cons_eq_split {α : Type} (a x : α) (l pre post : List α) :
    a :: l = pre ++ x :: post ↔
      (pre = [] ∧ a = x ∧ l = post) ∨ ∃ pre1, pre = a :: pre1 ∧ l = pre1 ++ x :: post := by
  cases pre with
  | nil => simp
  | cons b pre1 =>
    simp only [List.cons_append, List.cons.injEq, reduceCtorEq, false_and, false_or]
    constructor
    · rintro ⟨rfl, h⟩
      exact ⟨pre1, ⟨rfl, rfl⟩, h⟩
    · rintro ⟨p, ⟨rfl, rfl⟩, h⟩
      exact ⟨rfl, h⟩

/-- What precedes a call of `Boot`: a Run is that of the early runner, as the third
call, or that of the late runner built with the configuration that was parsed; the
configuration is read from ConfigPath, and then parsed, only after the first Run
returned no error. -/
theorem Boot_calls_preceded (env : Env W Cfg Content Dev Req Err) (w : W) :
    (∀ pre post runner err, (Boot env w).calls = pre ++ Call.Run runner err :: post →
      (runner = (Runner.mk none []).Add bootPhasesEarly ∧
        pre = [.NewRunner none none, .Add bootPhasesEarly]) ∨
      (∃ content config, runner = (Runner.mk (some config) []).Add bootPhasesLate ∧
        pre = [.NewRunner none none, .Add bootPhasesEarly,
          .Run ((Runner.mk none []).Add bootPhasesEarly) none,
          .FromFile constants.ConfigPath (.ok content), .New content (.ok config),
          .NewRunner (some config) none, .Add bootPhasesLate])) ∧
    (∀ pre post path result, (Boot env w).calls = pre ++ Call.FromFile path result :: post →
      path = constants.ConfigPath ∧
      pre = [.NewRunner none none, .Add bootPhasesEarly,
        .Run ((Runner.mk none []).Add bootPhasesEarly) none]) ∧
    (∀ pre post content result, (Boot env w).calls = pre ++ Call.New content result :: post →
      pre = [.NewRunner none none, .Add bootPhasesEarly,
        .Run ((Runner.mk none []).Add bootPhasesEarly) none,
        .FromFile constants.ConfigPath (.ok content)]) := by
  rcases Boot_cases env w with ⟨e, -, hc⟩ | ⟨e, -, hc⟩ | ⟨e, -, hc⟩ | ⟨e, content, -, hc⟩ |
    ⟨e, content, config, -, hc⟩ | ⟨err, content, config, -, hc⟩ <;>
  · rw [hc]
    try simp only [earlyRunner, lateRunner]
    refine ⟨?_, ?_, ?_⟩ <;>
    · intro pre post a b h
      (simp only [cons_eq_split, List.nil_eq_append_iff, reduceCtorEq, false_and, and_false,
        false_or, or_false, exists_false, Call.Run.injEq, Call.FromFile.injEq,
        Call.New.injEq] at h) <;> aesop

/-- How far `Boot` gets once the first phase runner is built: it runs the early
runner, and what it does next follows what each call returns. -/
theorem Boot_calls_follow (env : Env W Cfg Content Dev Req Err) (w w1 : W)
    (h1 : env.NewRunner none w = (none, w1)) :
    (∃ rest, (Boot env w).calls = [.NewRunner none none, .Add bootPhasesEarly,
        .Run earlyRunner (env.Run earlyRunner w1).1] ++ rest) ∧
    (∀ e w2, env.Run earlyRunner w1 = (some e, w2) →
      (Boot env w).err = some e ∧
      (Boot env w).calls
        = [.NewRunner none none, .Add bootPhasesEarly, .Run earlyRunner (some e)]) ∧
    (∀ w2, env.Run earlyRunner w1 = (none, w2) →
      (∃ rest, (Boot env w).calls = [.NewRunner none none, .Add bootPhasesEarly,
          .Run earlyRunner none,
          .FromFile constants.ConfigPath (env.FromFile constants.ConfigPath w2).1] ++ rest) ∧
      (∀ content w3, env.FromFile constants.ConfigPath w2 = (.ok content, w3) →
        (∃ rest, (Boot env w).calls = [.NewRunner none none, .Add bootPhasesEarly,
            .Run earlyRunner none, .FromFile constants.ConfigPath (.ok content),
            .New content (env.New content w3).1] ++ rest) ∧
        (∀ config w4 w5, env.New content w3 = (.ok config, w4) →
          env.NewRunner (some config) w4 = (none, w5) →
          (Boot env w).calls = [.NewRunner none none, .Add bootPhasesEarly,
            .Run earlyRunner none, .FromFile constants.ConfigPath (.ok content),
            .New content (.ok config), .NewRunner (some config) none, .Add bootPhasesLate,
            .Run (lateRunner config) (env.Run (lateRunner config) w5).1] ∧
          (Boot env w).err = (env.Run (lateRunner config) w5).1 ∧
          (Boot env w).world = (env.Run (lateRunner config) w5).2))) := by
  simp only [earlyRunner, lateRunner]
  rcases h2 : env.Run ((Runner.mk none []).Add bootPhasesEarly) w1 with ⟨_ | e, w2⟩
  · rcases h3 : env.FromFile constants.ConfigPath w2 with ⟨e | content, w3⟩
    · have hB : Boot env w = ⟨some e, w3, [.NewRunner none none, .Add bootPhasesEarly,
          .Run ((Runner.mk none []).Add bootPhasesEarly) none,
          .FromFile constants.ConfigPath (.error e)]⟩ := by
        simp [Boot, bootLate, h1, h2, h3]
      rw [hB]
      refine ⟨⟨[.FromFile constants.ConfigPath (.error e)], rfl⟩, ?_, ?_⟩
      · intro e1 w2a h
        simp at h
      · intro w2a h
        obtain rfl : w2 = w2a := by simpa using h
        rw [h3]
        refine ⟨⟨[], rfl⟩, ?_⟩
        intro content1 w3a hc
        simp at hc
    · rcases h4 : env.New content w3 with ⟨e | config, w4⟩
      · have hB : Boot env w = ⟨some e, w4, [.NewRunner none none, .Add bootPhasesEarly,
            .Run ((Runner.mk none []).Add bootPhasesEarly) none,
            .FromFile constants.ConfigPath (.ok content), .New content (.error e)]⟩ := by
          simp [Boot, bootLate, h1, h2, h3, h4]
        rw [hB]
        refine ⟨⟨[.FromFile constants.ConfigPath (.ok content), .New content (.error e)],
          rfl⟩, ?_, ?_⟩
        · intro e1 w2a h
          simp at h
        · intro w2a h
          obtain rfl : w2 = w2a := by simpa using h
          rw [h3]
          refine ⟨⟨[.New content (.error e)], rfl⟩, ?_⟩
          intro content1 w3a hc
          obtain ⟨rfl, rfl⟩ : content = content1 ∧ w3 = w3a := by simpa using hc
          rw [h4]
          refine ⟨⟨[], rfl⟩, ?_⟩
          intro config1 w4a w5a hn
          simp at hn
      · rcases h5 : env.NewRunner (some config) w4 with ⟨_ | e, w5⟩
        · rcases h6 : env.Run ((Runner.mk (some config) []).Add bootPhasesLate) w5
            with ⟨err, w6⟩
          have hB : Boot env w = ⟨err, w6, [.NewRunner none none, .Add bootPhasesEarly,
              .Run ((Runner.mk none []).Add bootPhasesEarly) none,
              .FromFile constants.ConfigPath (.ok content), .New content (.ok config),
              .NewRunner (some config) none, .Add bootPhasesLate,
              .Run ((Runner.mk (some config) []).Add bootPhasesLate) err]⟩ := by
            simp [Boot, bootLate, h1, h2, h3, h4, h5, h6]
          rw [hB]
          refine ⟨⟨[.FromFile constants.ConfigPath (.ok content), .New content (.ok config),
            .NewRunner (some config) none, .Add bootPhasesLate,
            .Run ((Runner.mk (some config) []).Add bootPhasesLate) err], rfl⟩, ?_, ?_⟩
          · intro e1 w2a h
            simp at h
          · intro w2a h
            obtain rfl : w2 = w2a := by simpa using h
            rw [h3]
            refine ⟨⟨[.New content (.ok config), .NewRunner (some config) none,
              .Add bootPhasesLate,
              .Run ((Runner.mk (some config) []).Add bootPhasesLate) err], rfl⟩, ?_⟩
            intro content1 w3a hc
            obtain ⟨rfl, rfl⟩ : content = content1 ∧ w3 = w3a := by simpa using hc
            rw [h4]
            refine ⟨⟨[.NewRunner (some config) none, .Add bootPhasesLate,
              .Run ((Runner.mk (some config) []).Add bootPhasesLate) err], rfl⟩, ?_⟩
            intro config1 w4a w5a hn hr
            obtain ⟨rfl, rfl⟩ : config = config1 ∧ w4 = w4a := by simpa using hn
            rw [h5] at hr
            obtain rfl : w5 = w5a := by simpa using hr
            rw [h6]
            exact ⟨rfl, rfl, rfl⟩
        · have hB : Boot env w = ⟨some e, w5, [.NewRunner none none, .Add bootPhasesEarly,
              .Run ((Runner.mk none []).Add bootPhasesEarly) none,
              .FromFile constants.ConfigPath (.ok content), .New content (.ok config),
              .NewRunner (some config) (some e)]⟩ := by
            simp [Boot, bootLate, h1, h2, h3, h4, h5]
          rw [hB]
          refine ⟨⟨[.FromFile constants.ConfigPath (.ok content), .New content (.ok config),
            .NewRunner (some config) (some e)], rfl⟩, ?_, ?_⟩
          · intro e1 w2a h
            simp at h
          · intro w2a h
            obtain rfl : w2 = w2a := by simpa using h
            rw [h3]
            refine ⟨⟨[.New content (.ok config), .NewRunner (some config) (some e)], rfl⟩, ?_⟩
            intro content1 w3a hc
            obtain ⟨rfl, rfl⟩ : content = content1 ∧ w3 = w3a := by simpa using hc
            rw [h4]
            refine ⟨⟨[.NewRunner (some config) (some e)], rfl⟩, ?_⟩
            intro config1 w4a w5a hn hr
            obtain ⟨rfl, rfl⟩ : config = config1 ∧ w4 = w4a := by simpa using hn
            rw [h5] at hr
            simp at hr
  · have hB : Boot env w = ⟨some e, w2, [.NewRunner none none, .Add bootPhasesEarly,
        .Run ((Runner.mk none []).Add bootPhasesEarly) (some e)]⟩ := by
      simp [Boot, h1, h2]
    rw [hB]
    refine ⟨⟨[], rfl⟩, ?_, ?_⟩
    · intro e1 w2a h
      obtain ⟨rfl, rfl⟩ : e = e1 ∧ w2 = w2a := by simpa using h
      exact ⟨rfl, rfl⟩
    · intro w2a h
      simp at h

/-- C3. In Boot the first four phases are those of a phase runner built with an
absent configuration, and once that runner is built Boot runs it; when that first
Run has returned no error, and only then, Boot reads the configuration from
ConfigPath and, when that succeeds, parses it; and when the parse succeeds and the
second phase runner is built, the remaining ten phases are those of that second
runner, built with exactly the parsed configuration, and Boot runs it and returns
its result. No Run, no read and no parse happens in any other place. -/
theorem Boot_config_between_pipelines (env : Env W Cfg Content Dev Req Err) (w : W) :
    ((earlyRunner : Runner Cfg (phase.Task Req)).config = none ∧
      (earlyRunner : Runner Cfg (phase.Task Req)).phases.map Phase.description
        = ["system requirements", "basic system configuration", "initial network",
            "config"]) ∧
    (∀ config : Cfg,
      (lateRunner config : Runner Cfg (phase.Task Req)).config = some config ∧
      (lateRunner config : Runner Cfg (phase.Task Req)).phases.map Phase.description
        = ["mount extra devices", "user requests", "start system-containerd",
            "platform tasks", "installation verification", "overlay mounts", "setup /var",
            "save config", "start services", "post startup tasks"]) ∧
    (∀ w1, env.NewRunner none w = (none, w1) →
      (∃ rest, (Boot env w).calls = [.NewRunner none none, .Add bootPhasesEarly,
          .Run earlyRunner (env.Run earlyRunner w1).1] ++ rest) ∧
      (∀ e w2, env.Run earlyRunner w1 = (some e, w2) →
        (Boot env w).err = some e ∧
        (Boot env w).calls
          = [.NewRunner none none, .Add bootPhasesEarly, .Run earlyRunner (some e)]) ∧
      (∀ w2, env.Run earlyRunner w1 = (none, w2) →
        (∃ rest, (Boot env w).calls = [.NewRunner none none, .Add bootPhasesEarly,
            .Run earlyRunner none,
            .FromFile constants.ConfigPath (env.FromFile constants.ConfigPath w2).1] ++ rest) ∧
        (∀ content w3, env.FromFile constants.ConfigPath w2 = (.ok content, w3) →
          (∃ rest, (Boot env w).calls = [.NewRunner none none, .Add bootPhasesEarly,
              .Run earlyRunner none, .FromFile constants.ConfigPath (.ok content),
              .New content (env.New content w3).1] ++ rest) ∧
          (∀ config w4 w5, env.New content w3 = (.ok config, w4) →
            env.NewRunner (some config) w4 = (none, w5) →
            (Boot env w).calls = [.NewRunner none none, .Add bootPhasesEarly,
              .Run earlyRunner none, .FromFile constants.ConfigPath (.ok content),
              .New content (.ok config), .NewRunner (some config) none,
              .Add bootPhasesLate,
              .Run (lateRunner config) (env.Run (lateRunner config) w5).1] ∧
            (Boot env w).err = (env.Run (lateRunner config) w5).1 ∧
            (Boot env w).world = (env.Run (lateRunner config) w5).2)))) ∧
    (∀ pre post runner err, (Boot env w).calls = pre ++ Call.Run runner err :: post →
      (runner = (Runner.mk none []).Add bootPhasesEarly ∧
        pre = [.NewRunner none none, .Add bootPhasesEarly]) ∨
      (∃ content config, runner = (Runner.mk (some config) []).Add bootPhasesLate ∧
        pre = [.NewRunner none none, .Add bootPhasesEarly,
          .Run ((Runner.mk none []).Add bootPhasesEarly) none,
          .FromFile constants.ConfigPath (.ok content), .New content (.ok config),
          .NewRunner (some config) none, .Add bootPhasesLate])) ∧
    (∀ pre post path result, (Boot env w).calls = pre ++ Call.FromFile path result :: post →
      path = constants.ConfigPath ∧
      pre = [.NewRunner none none, .Add bootPhasesEarly,
        .Run ((Runner.mk none []).Add bootPhasesEarly) none]) ∧
    (∀ pre post content result, (Boot env w).calls = pre ++ Call.New content result :: post →
      pre = [.NewRunner none none, .Add bootPhasesEarly,
        .Run ((Runner.mk none []).Add bootPhasesEarly) none,
        .FromFile constants.ConfigPath (.ok content)]) := by
  obtain ⟨o1, o2, o3⟩ := Boot_calls_preceded env w
  refine ⟨⟨rfl, rfl⟩, fun config => ⟨rfl, rfl⟩, fun w1 h1 => Boot_calls_follow env w w1 h1,
    o1, o2, o3⟩

/-- C4. Boot returns the error of the call that failed; when building a phase
runner, the first pipeline, reading the configuration file or parsing it fails,
the only Run there has been is that of the first pipeline, so no phase of the
second pipeline is executed; and Boot returns nil only if the Run of both
pipelines returned nil. -/
theorem Boot_error_propagation (env : Env W Cfg Content Dev Req Err) (w : W) :
    (∀ c ∈ (Boot env w).calls, ∀ e, c.err = some e → (Boot env w).err = some e) ∧
    (∀ e, ((∃ config, Call.NewRunner config (some e) ∈ (Boot env w).calls) ∨
          Call.Run earlyRunner (some e) ∈ (Boot env w).calls ∨
          (∃ path, Call.FromFile path (.error e) ∈ (Boot env w).calls) ∨
          (∃ content, Call.New content (.error e) ∈ (Boot env w).calls)) →
      (Boot env w).err = some e ∧
      ∀ runner err, Call.Run runner err ∈ (Boot env w).calls → runner = earlyRunner) ∧
    ((Boot env w).err = none →
      Call.Run earlyRunner none ∈ (Boot env w).calls ∧
      ∃ config, Call.Run (lateRunner config) none ∈ (Boot env w).calls) := by
  rcases Boot_cases env w with ⟨e, he, hc⟩ | ⟨e, he, hc⟩ | ⟨e, he, hc⟩ | ⟨e, content, he, hc⟩ |
    ⟨e, content, config, he, hc⟩ | ⟨err, content, config, he, hc⟩ <;>
  · rw [hc, he]
    refine ⟨?_, ?_, ?_⟩
    · simp [Call.err]
    · simp [earlyRunner, lateRunner, Runner.Add]
    · intro h
      simp_all [earlyRunner, lateRunner, Runner.Add]

/-- The calls of `Shutdown`: it fails before it has built a phase, or it builds
the shutdown phases and runs them. -/
theorem Shutdown_cases (env : Env W Cfg Content Dev Req Err) (w : W) :
    ((Shutdown env w).err ≠ none ∧ addedNames (Shutdown env w).calls = []) ∨
    addedNames (Shutdown env w).calls
      = [(shutdownPhases : List (Phase (phase.Task Req))).map Phase.description] := by
  rcases h1 : env.FromFile constants.ConfigPath w with ⟨e | content, w1⟩
  · simp [Shutdown, addedNames, h1]
  · rcases h2 : env.New content w1 with ⟨e | config, w2⟩
    · simp [Shutdown, addedNames, h1, h2]
    · rcases h3 : env.NewRunner (some config) w2 with ⟨_ | e, w3⟩
      · simp [Shutdown, addedNames, h1, h2, h3]
      · simp [Shutdown, addedNames, h1, h2, h3]

/-- The calls of `Upgrade`: it fails before it has built a phase, or it builds
the upgrade phases for the name of the probed device and the request. -/
theorem Upgrade_cases (env : Env W Cfg Content Dev Req Err) (req : Req) (w : W) :
    ((Upgrade env req w).err ≠ none ∧ addedNames (Upgrade env req w).calls = []) ∨
    ∃ devname, addedNames (Upgrade env req w).calls
      = [(upgradePhases devname req).map Phase.description] := by
  rcases h1 : env.FromFile constants.ConfigPath w with ⟨e | content, w1⟩
  · simp [Upgrade, addedNames, h1]
  · rcases h2 : env.New content w1 with ⟨e | config, w2⟩
    · simp [Upgrade, addedNames, h1, h2]
    · rcases h3 : env.NewRunner (some config) w2 with ⟨_ | e, w3⟩
      · rcases h4 : env.GetDevWithFileSystemLabel constants.EphemeralPartitionLabel w3
          with ⟨e | dev, w4⟩
        · simp [Upgrade, upgradeLate, addedNames, h1, h2, h3, h4]
        · rcases h5 : env.Close dev w4 with ⟨_ | e, w5⟩
          · right
            exact ⟨env.Name dev, by simp [Upgrade, upgradeLate, addedNames, h1, h2, h3, h4, h5]⟩
          · simp [Upgrade, upgradeLate, addedNames, h1, h2, h3, h4, h5]
      · simp [Upgrade, addedNames, h1, h2, h3]

/-- C5. The phases each lifecycle operation builds are fixed, whatever the
configuration and the upgrade request are: Shutdown, Upgrade and Boot either fail
before building a phase list or build the phase lists with exactly these names, in
this order (Boot its first list, then its second when the first pipeline and the
loading of the configuration succeeded). -/
theorem lifecycle_phase_names (env : Env W Cfg Content Dev Req Err) (req : Req) (w : W) :
    (((Shutdown env w).err ≠ none ∧ addedNames (Shutdown env w).calls = []) ∨
      addedNames (Shutdown env w).calls = [["stop services"]]) ∧
    (((Upgrade env req w).err ≠ none ∧ addedNames (Upgrade env req w).calls = []) ∨
      addedNames (Upgrade env req w).calls =
        [["cordon and drain node", "stop services", "kill all tasks", "stop containerd",
          "remove submounts", "unmount system disk", "reset partition", "upgrade"]]) ∧
    (((Boot env w).err ≠ none ∧ addedNames (Boot env w).calls = []) ∨
      ((Boot env w).err ≠ none ∧ addedNames (Boot env w).calls =
        [["system requirements", "basic system configuration", "initial network", "config"]]) ∨
      addedNames (Boot env w).calls =
        [["system requirements", "basic system configuration", "initial network", "config"],
         ["mount extra devices", "user requests", "start system-containerd", "platform tasks",
          "installation verification", "overlay mounts", "setup /var", "save config",
          "start services", "post startup tasks"]]) := by
  refine ⟨?_, ?_, ?_⟩
  · rcases Shutdown_cases env w with h | h
    · exact Or.inl h
    · exact Or.inr (by rw [h]; rfl)
  · rcases Upgrade_cases env req w with h | ⟨devname, h⟩
    · exact Or.inl h
    · exact Or.inr (by rw [h]; rfl)
  · rcases Boot_cases env w with ⟨e, he, hc⟩ | ⟨e, he, hc⟩ | ⟨e, he, hc⟩ |
      ⟨e, content, he, hc⟩ | ⟨e, content, config, he, hc⟩ | ⟨err, content, config, he, hc⟩
    · exact Or.inl ⟨by simp [he], by simp [hc, addedNames]⟩
    · exact Or.inr (Or.inl ⟨by simp [he], by rw [hc]; rfl⟩)
    · exact Or.inr (Or.inl ⟨by simp [he], by rw [hc]; rfl⟩)
    · exact Or.inr (Or.inl ⟨by simp [he], by rw [hc]; rfl⟩)
    · exact Or.inr (Or.inl ⟨by simp [he], by rw [hc]; rfl⟩)
    · exact Or.inr (Or.inr (by rw [hc]; rfl))

end operations

end v1alpha1

namespace runner

/-- Opening a container runner succeeds whatever the namespace holds, and leaves
a container of its id without a task. -/
theorem Open_container (r : Runner) (rt : Runtime) (hv : r.variant = .container)
    (hwf : rt.wellFormed) :
    (r.Open rt).1 = none ∧ (r.Open rt).2.1 = { r with status := .opened } ∧
      r.id ∈ (r.Open rt).2.2.containers ∧ r.id ∉ (r.Open rt).2.2.tasks ∧
      (r.Open rt).2.2.wellFormed := by
  by_cases hin : r.id ∈ rt.containers
  · have e : r.Open rt = (none, { r with status := .opened },
        { rt with
          containers := r.id :: rt.containers.filter (· ≠ r.id),
          tasks := rt.tasks.filter (· ≠ r.id),
          log := rt.log ++ [.deleteContainer r.id] ++ [.createContainer r.id] }) := by
      simp [Runner.Open, hv, hin, Runtime.createContainer, Runtime.deleteContainer]
    rw [e]
    refine ⟨rfl, rfl, by simp, by simp, ?_⟩
    intro id hid
    simp only [List.mem_filter, List.mem_cons] at hid ⊢
    exact Or.inr ⟨hwf id hid.1, hid.2⟩
  · have e : r.Open rt = (none, { r with status := .opened },
        { rt with containers := r.id :: rt.containers,
                  log := rt.log ++ [.createContainer r.id] }) := by
      simp [Runner.Open, hv, hin, Runtime.createContainer]
    rw [e]
    refine ⟨rfl, rfl, by simp, fun h => hin (hwf _ h), ?_⟩
    intro id hid
    exact List.mem_cons_of_mem _ (hwf id hid)

/-- Opening a container runner in a namespace that holds a container of its id
deletes that container, then creates its own. -/
theorem Open_stale_log (r : Runner) (rt : Runtime) (hv : r.variant = .container)
    (hin : r.id ∈ rt.containers) :
    (r.Open rt).2.2.log = rt.log ++ [.deleteContainer r.id, .createContainer r.id] := by
  simp [Runner.Open, hv, hin, Runtime.createContainer, Runtime.deleteContainer]

/-- A container runner whose container exists and has no task runs its workload
to the workload's own result, and leaves the container without a task. -/
theorem Run_exits (r : Runner) (rt : Runtime) (res : Option String)
    (hw : r.workload.exit = some res) (hc : r.id ∈ rt.containers) (ht : r.id ∉ rt.tasks) :
    (r.Run rt).1 = some res ∧ (r.Run rt).2.1 = { r with status := .returned res } ∧
      r.id ∈ (r.Run rt).2.2.containers ∧ r.id ∉ (r.Run rt).2.2.tasks := by
  simp [Runner.Run, Runtime.startTask, Runtime.deleteTask, hw, hc, ht]

/-- Stop on a runner whose `Run` has returned changes nothing. -/
theorem Stop_returned (r : Runner) (rt : Runtime) (res : Option String)
    (hs : r.status = .returned res) : r.Stop rt = (none, r, rt) := by
  simp [Runner.Stop, hs]

/-- C6. For a runner of either variant, in any state of the runtime: once Run has
returned, Stop returns no error and leaves the runner and the runtime as they
are. -/
theorem Stop_after_Run_is_noop (r : Runner) (rt : Runtime) (res : Option String)
    (h : (r.Run rt).1 = some res) :
    (r.Run rt).2.1.Stop (r.Run rt).2.2 = (none, (r.Run rt).2.1, (r.Run rt).2.2) := by
  have hs : (r.Run rt).2.1.status = .returned res := by
    unfold Runner.Run at h ⊢
    split
    · next err he => simp only [he] at h; simpa using h
    · next rt1 he =>
      simp only [he] at h
      cases hx : r.workload.exit with
      | none => simp [hx] at h
      | some x => simp only [hx] at h ⊢; simpa using h
  exact Stop_returned _ _ res hs

/-- C6 at concrete runners, one of each variant, whose workload exits by itself. -/
theorem Stop_after_Run_is_noop_witness :
    (((NewRunner .container "test" 10 ⟨some none, false⟩).Run ⟨["test"], [], [], none⟩).1 = some none ∧
      ((NewRunner .container "test" 10 ⟨some none, false⟩).Run ⟨["test"], [], [], none⟩).2.1.Stop
          ((NewRunner .container "test" 10 ⟨some none, false⟩).Run ⟨["test"], [], [], none⟩).2.2
        = (none, ((NewRunner .container "test" 10 ⟨some none, false⟩).Run ⟨["test"], [], [], none⟩).2.1,
            ((NewRunner .container "test" 10 ⟨some none, false⟩).Run ⟨["test"], [], [], none⟩).2.2)) ∧
    ((NewRunner .process "test" 10 ⟨some (some "exit 1"), false⟩).Run ⟨[], [], [], none⟩).2.1.Stop
        ((NewRunner .process "test" 10 ⟨some (some "exit 1"), false⟩).Run ⟨[], [], [], none⟩).2.2
      = (none, ((NewRunner .process "test" 10 ⟨some (some "exit 1"), false⟩).Run ⟨[], [], [], none⟩).2.1,
          ((NewRunner .process "test" 10 ⟨some (some "exit 1"), false⟩).Run ⟨[], [], [], none⟩).2.2) :=
  ⟨⟨by decide, Stop_after_Run_is_noop _ _ none (by decide)⟩,
    Stop_after_Run_is_noop _ _ (some "exit 1") (by decide)⟩

/-- C9, as it holds. A runner (container or process) whose Run is pending on a
workload that ignores the stop signal: Stop sends the stop signal, waits
gracefulShutdownTimeout and sends the kill signal; when the runtime delivers the
kill, Stop returns no error and the pending Run has returned; when the runtime
fails to kill, Stop returns that failure and the Run is still pending. -/
theorem Stop_escalates_to_kill (r : Runner) (rt : Runtime)
    (hp : (r.Run rt).1 = none) (hi : r.workload.ignoresStop = true) :
    (∃ tail, ((r.Run rt).2.1.Stop (r.Run rt).2.2).2.2.log
      = (r.Run rt).2.2.log ++ [.signal r.id .stop, .wait r.gracefulShutdownTimeout,
          .signal r.id .kill] ++ tail) ∧
    (rt.killFails = none →
      ((r.Run rt).2.1.Stop (r.Run rt).2.2).1 = none ∧
      ((r.Run rt).2.1.Stop (r.Run rt).2.2).2.1.status = .returned none ∧
      ((r.Run rt).2.1.Stop (r.Run rt).2.2).2.2.log
        = (r.Run rt).2.2.log ++ [.signal r.id .stop, .wait r.gracefulShutdownTimeout,
            .signal r.id .kill, .deleteTask r.id] ∧
      r.id ∉ ((r.Run rt).2.1.Stop (r.Run rt).2.2).2.2.tasks) ∧
    (∀ e, rt.killFails = some e →
      ((r.Run rt).2.1.Stop (r.Run rt).2.2).1 = some e ∧
      ((r.Run rt).2.1.Stop (r.Run rt).2.2).2.1.status = .running ∧
      ((r.Run rt).2.1.Stop (r.Run rt).2.2).2.2.log
        = (r.Run rt).2.2.log ++ [.signal r.id .stop, .wait r.gracefulShutdownTimeout,
            .signal r.id .kill]) := by
  unfold Runner.Run at hp ⊢
  split
  · next err he => simp [he] at hp
  · next rt1 he =>
    simp only [he] at hp
    have hk : rt1.killFails = rt.killFails := by
      unfold Runtime.startTask at he
      split at he
      · simp at he
      · split at he
        · simp at he
        · simp only [Except.ok.injEq] at he
          rw [← he]
    cases hx : r.workload.exit with
    | some x => simp [hx] at hp
    | none =>
      cases hf : rt.killFails with
      | none => simp [Runner.Stop, hi, Runtime.note, Runtime.deleteTask, hk, hf]
      | some e => simp [Runner.Stop, hi, Runtime.note, hk, hf]

/-- C9 at the runner of `TestStopSigKill`, whose workload traps the stop signal
and loops, in a runtime that delivers the kill: Stop returns no error and the
pending Run has returned. -/
theorem Stop_escalates_to_kill_witness :
    ((NewRunner .container "nokill" 10 ⟨none, true⟩).Run ⟨["nokill"], [], [], none⟩).1 = none ∧
    (((NewRunner .container "nokill" 10 ⟨none, true⟩).Run ⟨["nokill"], [], [], none⟩).2.1.Stop
        ((NewRunner .container "nokill" 10 ⟨none, true⟩).Run ⟨["nokill"], [], [], none⟩).2.2).1
      = none ∧
    (((NewRunner .container "nokill" 10 ⟨none, true⟩).Run
        ⟨["nokill"], [], [], none⟩).2.1.Stop
        ((NewRunner .container "nokill" 10 ⟨none, true⟩).Run
          ⟨["nokill"], [], [], none⟩).2.2).2.1.status
      = .returned none :=
  ⟨by decide,
    ((Stop_escalates_to_kill (NewRunner .container "nokill" 10 ⟨none, true⟩)
      ⟨["nokill"], [], [], none⟩ (by decide) rfl).2.1 rfl).1,
    ((Stop_escalates_to_kill (NewRunner .container "nokill" 10 ⟨none, true⟩)
      ⟨["nokill"], [], [], none⟩ (by decide) rfl).2.1 rfl).2.1⟩

/-- C9 fails as stated: the runner of `TestStopSigKill` in a runtime that fails to
kill the task. Its Run is pending and its workload ignores the stop signal; Stop
sends the stop signal, waits and sends the kill signal, and returns the failure of
the kill, and the Run is still pending. -/
theorem Stop_kill_failure_counterexample :
    (NewRunner .container "nokill" 10 ⟨none, true⟩).workload.ignoresStop = true ∧
    ((NewRunner .container "nokill" 10 ⟨none, true⟩).Run
      ⟨["nokill"], [], [], some "task not found"⟩).1 = none ∧
    (((NewRunner .container "nokill" 10 ⟨none, true⟩).Run
        ⟨["nokill"], [], [], some "task not found"⟩).2.1.Stop
      ((NewRunner .container "nokill" 10 ⟨none, true⟩).Run
        ⟨["nokill"], [], [], some "task not found"⟩).2.2).1 = some "task not found" ∧
    (((NewRunner .container "nokill" 10 ⟨none, true⟩).Run
        ⟨["nokill"], [], [], some "task not found"⟩).2.1.Stop
      ((NewRunner .container "nokill" 10 ⟨none, true⟩).Run
        ⟨["nokill"], [], [], some "task not found"⟩).2.2).2.1.status = .running ∧
    (((NewRunner .container "nokill" 10 ⟨none, true⟩).Run
        ⟨["nokill"], [], [], some "task not found"⟩).2.1.Stop
      ((NewRunner .container "nokill" 10 ⟨none, true⟩).Run
        ⟨["nokill"], [], [], some "task not found"⟩).2.2).2.2.log
      = [.startTask "nokill", .signal "nokill" .stop, .wait 10, .signal "nokill" .kill] := by
  decide

/-- C10. In a containerd namespace, whatever containers it holds: Open of a
container runner returns no error; a second runner, opened under the id of a first
runner that was opened and never closed, finds the first runner's container,
deletes it, creates its own, and opens, runs and stops without error; and a runner
whose workload succeeds is opened, then twice run and stopped, all without
error. -/
theorem Open_cleans_stale_container (r1 r2 : Runner) (rt : Runtime)
    (hwf : rt.wellFormed) (h1 : r1.variant = .container) (h2 : r2.variant = .container)
    (hid : r1.id = r2.id) (hw : r2.workload.exit = some none) :
    (r2.Open rt).1 = none ∧ r2.id ∈ (r2.Open rt).2.2.containers ∧
    r2.id ∈ (r1.Open rt).2.2.containers ∧ (r2.Open (r1.Open rt).2.2).1 = none ∧
    (r2.Open (r1.Open rt).2.2).2.2.log
      = (r1.Open rt).2.2.log ++ [.deleteContainer r2.id, .createContainer r2.id] ∧
    TestContainerCleanup r1 r2 rt = [some none, some none, some none, some none] ∧
    TestRunTwice r2 rt = [some none, some none, some none, some none, some none] := by
  obtain ⟨a1, a2, a3, a4, a5⟩ := Open_container r2 rt h2 hwf
  obtain ⟨b1, -, b3, -, b5⟩ := Open_container r1 rt h1 hwf
  obtain ⟨c1, c2, c3, c4, -⟩ := Open_container r2 (r1.Open rt).2.2 h2 b5
  refine ⟨a1, a3, hid ▸ b3, c1, Open_stale_log r2 _ h2 (hid ▸ b3), ?_, ?_⟩
  · have hw1 : (r2.Open (r1.Open rt).2.2).2.1.workload.exit = some none := by rw [c2]; exact hw
    have hi1 : (r2.Open (r1.Open rt).2.2).2.1.id = r2.id := by rw [c2]
    obtain ⟨d1, d2, -, -⟩ := Run_exits (r2.Open (r1.Open rt).2.2).2.1
      (r2.Open (r1.Open rt).2.2).2.2 none hw1 (by rw [hi1]; exact c3) (by rw [hi1]; exact c4)
    have e := Stop_returned ((r2.Open (r1.Open rt).2.2).2.1.Run (r2.Open (r1.Open rt).2.2).2.2).2.1
      ((r2.Open (r1.Open rt).2.2).2.1.Run (r2.Open (r1.Open rt).2.2).2.2).2.2 none
      (by rw [d2])
    simp only [TestContainerCleanup, returned, b1, c1, d1, e]
  · have hw1 : (r2.Open rt).2.1.workload.exit = some none := by rw [a2]; exact hw
    have hi1 : (r2.Open rt).2.1.id = r2.id := by rw [a2]
    obtain ⟨d1, d2, d3, d4⟩ := Run_exits (r2.Open rt).2.1 (r2.Open rt).2.2 none hw1
      (by rw [hi1]; exact a3) (by rw [hi1]; exact a4)
    have e := Stop_returned ((r2.Open rt).2.1.Run (r2.Open rt).2.2).2.1
      ((r2.Open rt).2.1.Run (r2.Open rt).2.2).2.2 none (by rw [d2])
    have hw2 : ((r2.Open rt).2.1.Run (r2.Open rt).2.2).2.1.workload.exit = some none := by
      rw [d2]; exact hw1
    have hi2 : ((r2.Open rt).2.1.Run (r2.Open rt).2.2).2.1.id = (r2.Open rt).2.1.id := by
      rw [d2]
    obtain ⟨f1, f2, -, -⟩ := Run_exits ((r2.Open rt).2.1.Run (r2.Open rt).2.2).2.1
      ((r2.Open rt).2.1.Run (r2.Open rt).2.2).2.2 none hw2
      (by rw [hi2]; exact d3) (by rw [hi2]; exact d4)
    have g := Stop_returned
      (((r2.Open rt).2.1.Run (r2.Open rt).2.2).2.1.Run
        ((r2.Open rt).2.1.Run (r2.Open rt).2.2).2.2).2.1
      (((r2.Open rt).2.1.Run (r2.Open rt).2.2).2.1.Run
        ((r2.Open rt).2.1.Run (r2.Open rt).2.2).2.2).2.2 none (by rw [f2])
    simp only [TestRunTwice, returned, a1, d1, e, f1, g]

/-- C10 at the runners of `TestContainerCleanup`, in a namespace that already
holds a container and a live task of their id. -/
theorem Open_cleans_stale_container_witness :
    TestContainerCleanup (NewRunner .container "cleanup1" 10 ⟨some (some "exit 1"), false⟩)
        (NewRunner .container "cleanup1" 10 ⟨some none, false⟩)
        ⟨["cleanup1", "other"], ["cleanup1"], [], none⟩
      = [some none, some none, some none, some none] ∧
    TestRunTwice (NewRunner .container "cleanup1" 10 ⟨some none, false⟩)
        ⟨["cleanup1", "other"], ["cleanup1"], [], none⟩
      = [some none, some none, some none, some none, some none] :=
  (Open_cleans_stale_container (NewRunner .container "cleanup1" 10 ⟨some (some "exit 1"), false⟩)
    (NewRunner .container "cleanup1" 10 ⟨some none, false⟩)
    ⟨["cleanup1", "other"], ["cleanup1"], [], none⟩ (by decide) rfl rfl rfl
    rfl).2.2.2.2.2

end runner

namespace restart

theorem loop_cons_elapsed (interval : Nat) (e : Option String) (rest : List Round) :
    loop (.Forever interval) (.exitThenElapsed e :: rest)
      = ⟨[.run, .wait interval, .reopen] ++ (loop (.Forever interval) rest).acts,
          (loop (.Forever interval) rest).returned⟩ := rfl

theorem loop_elapsed_append (interval : Nat) (tail : List Round) :
    ∀ exits : List (Option String),
    (loop (.Forever interval) (exits.map Round.exitThenElapsed ++ tail)).returned
        = (loop (.Forever interval) tail).returned ∧
    (loop (.Forever interval) (exits.map Round.exitThenElapsed ++ tail)).invocations
        = exits.length + (loop (.Forever interval) tail).invocations
  | [] => by simp
  | e :: exits => by
    obtain ⟨h1, h2⟩ := loop_elapsed_append interval tail exits
    rw [List.map_cons, List.cons_append, loop_cons_elapsed]
    refine ⟨h1, ?_⟩
    simp only [Result.invocations] at h2 ⊢
    rw [List.count_append, h2]
    simp only [List.length_cons]
    have : List.count Act.run [Act.run, Act.wait interval, Act.reopen] = 1 := by
      simp [List.count_cons]
    omega

theorem exitsBeforeStop_append (tail : List Round) : ∀ exits : List (Option String),
    exitsBeforeStop (exits.map Round.exitThenElapsed ++ tail)
      = exits.length + exitsBeforeStop tail
  | [] => by simp
  | e :: exits => by
    have ih := exitsBeforeStop_append tail exits
    rw [List.map_cons, List.cons_append]
    simp only [exitsBeforeStop, List.length_cons]
    omega

/-- After the round in which the Stop is observed nothing more is looked at. -/
theorem loop_after_stop (interval : Nat) (round : Round) (later : List Round)
    (h : ∀ e, round ≠ .exitThenElapsed e) : ∀ exits : List (Option String),
    loop (.Forever interval) (exits.map Round.exitThenElapsed ++ round :: later)
      = loop (.Forever interval) (exits.map Round.exitThenElapsed ++ [round])
  | [] => by
    cases round with
    | exitThenElapsed e => exact absurd rfl (h e)
    | exitThenStop e => rfl
    | stopWhileRunning e => rfl
  | e :: exits => by
    rw [List.map_cons, List.cons_append, List.cons_append, loop_cons_elapsed,
      loop_cons_elapsed, loop_after_stop interval round later h exits]

/-- C7, as it holds. Under Forever, for an inner runner that exits `exits.length`
times, each exit followed by a full wait: while no Stop is observed Run has not
returned and the inner runner has been invoked once more than it exited; a Stop
observed while the inner runner runs makes Run return with the inner runner
invoked exactly N+1 times for its N exits; a Stop observed during the wait after
an exit makes Run return with the inner runner invoked exactly N times for its N
exits; and what is observed after the Stop changes nothing: no further inner run
is started. -/
theorem Forever_restarts_until_stop (interval : Nat) (exits : List (Option String))
    (res : Option String) (later : List Round) :
    (Run (.Forever interval) (exits.map Round.exitThenElapsed)).returned = none ∧
    (Run (.Forever interval) (exits.map Round.exitThenElapsed)).invocations
      = exits.length + 1 ∧
    (Run (.Forever interval)
        (exits.map Round.exitThenElapsed ++ .stopWhileRunning res :: later)).returned ≠ none ∧
    (Run (.Forever interval)
        (exits.map Round.exitThenElapsed ++ .stopWhileRunning res :: later)).invocations
      = exitsBeforeStop (exits.map Round.exitThenElapsed ++ .stopWhileRunning res :: later)
        + 1 ∧
    (Run (.Forever interval)
        (exits.map Round.exitThenElapsed ++ .exitThenStop res :: later)).returned ≠ none ∧
    (Run (.Forever interval)
        (exits.map Round.exitThenElapsed ++ .exitThenStop res :: later)).invocations
      = exitsBeforeStop (exits.map Round.exitThenElapsed ++ .exitThenStop res :: later) ∧
    Run (.Forever interval) (exits.map Round.exitThenElapsed ++ .stopWhileRunning res :: later)
      = Run (.Forever interval) (exits.map Round.exitThenElapsed ++ [.stopWhileRunning res]) ∧
    Run (.Forever interval) (exits.map Round.exitThenElapsed ++ .exitThenStop res :: later)
      = Run (.Forever interval) (exits.map Round.exitThenElapsed ++ [.exitThenStop res]) := by
  have h0 := loop_elapsed_append interval [] exits
  have h1 := loop_elapsed_append interval (.stopWhileRunning res :: later) exits
  have h2 := loop_elapsed_append interval (.exitThenStop res :: later) exits
  have e1 := exitsBeforeStop_append (.stopWhileRunning res :: later) exits
  have e2 := exitsBeforeStop_append (.exitThenStop res :: later) exits
  simp only [List.append_nil] at h0
  refine ⟨?_, ?_, ?_, ?_, ?_, ?_, ?_, ?_⟩
  · rw [Run, h0.1]; rfl
  · rw [Run, h0.2]; rfl
  · rw [Run, h1.1]; simp [loop]
  · rw [Run, h1.2, e1]; rfl
  · rw [Run, h2.1]; simp [loop]
  · rw [Run, h2.2, e2]; rfl
  · exact loop_after_stop interval _ later (by simp) exits
  · exact loop_after_stop interval _ later (by simp) exits

/-- C7 fails as stated: an inner runner that exits once, with the Stop observed
during the wait that follows, has exited once before the Stop and was invoked
once, not twice. -/
theorem Forever_stop_during_wait_counterexample :
    exitsBeforeStop [.exitThenStop none] = 1 ∧
    (Run (.Forever 5) [.exitThenStop none]).returned = some none ∧
    (Run (.Forever 5) [.exitThenStop none]).invocations = 1 ∧
    ¬ (Run (.Forever 5) [.exitThenStop none]).invocations
        = exitsBeforeStop [.exitThenStop none] + 1 := by
  decide

/-- C8. Under Once the inner runner is invoked exactly one time, whatever is
observed, and as soon as it has returned the wrapper returns what it returned,
success or failure; until then the wrapper has not returned. -/
theorem Once_runs_once (script : List Round) :
    (Run .Once script).invocations = 1 ∧
    (∀ round rest, script = round :: rest →
      (Run .Once script).returned = some round.result) ∧
    (script = [] → (Run .Once script).returned = none) := by
  cases script with
  | nil => simp [Run, loop, Result.invocations]
  | cons round rest =>
    cases round <;> simp [Run, loop, Result.invocations, Round.result]

end restart

namespace net

theorem CIDRMaskLoop_length : ∀ (l n : Nat), (CIDRMaskLoop l n).length = l
  | 0, _ => rfl
  | l + 1, n => by
    unfold CIDRMaskLoop
    split <;> simp [CIDRMaskLoop_length l]

/-- A mask that `CIDRMask` builds has `bits / 8` bytes. -/
theorem CIDRMask_length (ones bits : Nat) (m : IPMask) (h : CIDRMask ones bits = some m) :
    m.length = bits / 8 := by
  unfold CIDRMask at h
  split at h
  · simp at h
  · split at h
    · simp at h
    · simp only [Option.some.injEq] at h
      rw [← h, CIDRMaskLoop_length]

/-- The mask `ParseCIDR` builds for an IPv4 address has 4 bytes. -/
theorem CIDRMask_length_v4 (ones : Nat) (h : ones ≤ 8 * IPv4len) :
    ((CIDRMask ones (8 * IPv4len)).getD []).length = 4 := by
  have h1 : ¬ 32 < ones := by simp only [IPv4len] at h; omega
  simp [CIDRMask, h1, CIDRMaskLoop_length, IPv4len, IPv6len]

/-- The mask `ParseCIDR` builds for an IPv6 address has 16 bytes. -/
theorem CIDRMask_length_v6 (ones : Nat) (h : ones ≤ 8 * IPv6len) :
    ((CIDRMask ones (8 * IPv6len)).getD []).length = 16 := by
  have h1 : ¬ 128 < ones := by simp only [IPv6len] at h; omega
  simp [CIDRMask, h1, CIDRMaskLoop_length, IPv4len, IPv6len]

/-- What `parseIPv4` returns is the 16-byte form of an IPv4 address. -/
theorem parseIPv4_form (s : List Char) (ip : IP) (h : parseIPv4 s = some ip) :
    ∃ a b c d, ip = IPv4 a b c d := by
  unfold parseIPv4 at h
  split at h
  · next a b c d _ => exact ⟨a, b, c, d, by simpa using h.symm⟩
  · simp at h

/-- The 16-byte form of an IPv4 address has a 4-byte form. -/
theorem To4_IPv4 (a b c d : Nat) : (IPv4 a b c d).To4 = some [a, b, c, d] := by
  simp [IP.To4, IPv4, v4InV6Prefix, IPv4len, IPv6len]

/-- What `ParseCIDR` accepts: a dotted-quad address, with a mask of 4 bytes, or
an address read as IPv6, with a mask of 16 bytes. -/
theorem ParseCIDR_cases (s : String) (ip : IP) (ipn : IPNet)
    (h : ParseCIDR s = some (ip, ipn)) :
    ((∃ a b c d, ip = IPv4 a b c d) ∧ ipn.Mask.length = 4) ∨ ipn.Mask.length = 16 := by
  unfold ParseCIDR ParseCIDRChars at h
  split at h
  · simp at h
  · next i hi =>
    simp only at h
    cases h4 : parseIPv4 (List.take i s.toList) with
    | some ip4 =>
      simp only [h4, Option.isSome_some, if_true] at h
      split at h
      · simp at h
      · simp only [Option.some.injEq, Prod.mk.injEq] at h
        obtain ⟨h1, h2⟩ := h
        left
        refine ⟨h1 ▸ parseIPv4_form _ _ h4, ?_⟩
        rw [← h2]
        rename_i hc
        simp only [not_or, not_lt] at hc
        exact CIDRMask_length_v4 _ hc.2.2
    | none =>
      simp only [h4, Option.isSome_none, Bool.false_eq_true, if_false] at h
      split at h
      · simp at h
      · split at h
        · simp at h
        · simp only [Option.some.injEq, Prod.mk.injEq] at h
          obtain ⟨h1, h2⟩ := h
          right
          rw [← h2]
          rename_i hc
          simp only [not_or, not_lt] at hc
          exact CIDRMask_length_v6 _ hc.2.2

end net

namespace address

/-- The loop of `Routes` builds the routes entry by entry. -/
theorem Routes_foldl_eq_map (f : machine.Route → Route) :
    ∀ (rs : List machine.Route) (acc : List Route),
    rs.foldl (fun routes route => routes ++ [f route]) acc = acc ++ rs.map f
  | [], acc => by simp
  | r :: rs, acc => by simp [Routes_foldl_eq_map f rs]

/-- C18, as it holds. For a Static address with a device: MTU() is the configured
Device.MTU converted to uint32 when that is not 0, so it equals Device.MTU itself
when Device.MTU lies in 1..2^32-1; when the converted Device.MTU is 0, as it is
for Device.MTU 0, MTU() is the MTU of the underlying interface converted to
uint32, so it equals the interface MTU itself when that lies in 0..2^32-1. -/
theorem MTU_is_uint32 (s : Static) (d : machine.Device) (hd : s.Device = some d) :
    (uint32 d.MTU ≠ 0 → s.MTU = some (uint32 d.MTU)) ∧
    (0 < d.MTU → d.MTU < 4294967296 → s.MTU.map Int.ofNat = some d.MTU) ∧
    (∀ netif, s.NetIf = some netif → uint32 d.MTU = 0 → s.MTU = some (uint32 netif.MTU)) ∧
    (∀ netif, s.NetIf = some netif → d.MTU = 0 → 0 ≤ netif.MTU → netif.MTU < 4294967296 →
      s.MTU.map Int.ofNat = some netif.MTU) := by
  refine ⟨?_, ?_, ?_, ?_⟩
  · intro h
    simp [Static.MTU, hd, h]
  · intro h0 h1
    have e : uint32 d.MTU = d.MTU.toNat := by
      unfold uint32
      rw [Int.emod_eq_of_lt (le_of_lt h0) h1]
    have hne : d.MTU.toNat ≠ 0 := by omega
    simp only [Static.MTU, hd, e, hne, if_false, Option.map_some', Option.some.injEq]
    exact Int.toNat_of_nonneg (le_of_lt h0)
  · intro netif hn h
    simp [Static.MTU, hd, hn, h]
  · intro netif hn h0 h1 h2
    have e : uint32 netif.MTU = netif.MTU.toNat := by
      unfold uint32
      rw [Int.emod_eq_of_lt h1 h2]
    have z : uint32 d.MTU = 0 := by rw [h0]; rfl
    simp only [Static.MTU, hd, hn, z, if_true, e, Option.map_some', Option.some.injEq]
    exact Int.toNat_of_nonneg h1

/-- C18 at a device with MTU 9000 on an interface with MTU 1500. -/
theorem MTU_is_uint32_witness :
    (⟨some ⟨"eth0", "10.0.0.2/24", 9000, []⟩, some ⟨"eth0", 1500⟩⟩ : Static).MTU.map Int.ofNat
      = some 9000 :=
  (MTU_is_uint32 ⟨some ⟨"eth0", "10.0.0.2/24", 9000, []⟩, some ⟨"eth0", 1500⟩⟩
    ⟨"eth0", "10.0.0.2/24", 9000, []⟩ rfl).2.1 (by decide) (by decide)

/-- C18 fails as stated: a configured Device.MTU of 2^32 is not zero, and MTU()
is the MTU of the interface, 1500, not the configured value. -/
theorem MTU_truncation_counterexample :
    (4294967296 : Int) ≠ 0 ∧
    (⟨some ⟨"eth0", "10.0.0.2/24", 4294967296, []⟩, some ⟨"eth0", 1500⟩⟩ : Static).MTU
      = some 1500 ∧
    ¬ (⟨some ⟨"eth0", "10.0.0.2/24", 4294967296, []⟩, some ⟨"eth0", 1500⟩⟩ : Static).MTU.map
        Int.ofNat = some 4294967296 := by
  decide

/-- C19, as it holds. For a Static address whose Device.CIDR is well formed:
Mask() has 4 or 16 bytes and Family() is AF_INET or AF_INET6; with a mask of 4
bytes (an IPv4 CIDR) Family() is AF_INET, and Family() is AF_INET6 only with a
mask of 16 bytes (an IPv6 CIDR); Family() is AF_INET exactly when the address of
the CIDR has a 4-byte form, which an IPv6 CIDR with an IPv4-mapped address also
has. -/
theorem Family_follows_address (s : Static) (d : machine.Device) (ip : net.IP)
    (ipn : net.IPNet) (hd : s.Device = some d) (hp : net.ParseCIDR d.CIDR = some (ip, ipn)) :
    s.Mask = some ipn.Mask ∧ (ipn.Mask.length = 4 ∨ ipn.Mask.length = 16) ∧
    (s.Family = some unix.AF_INET ∨ s.Family = some unix.AF_INET6) ∧
    (ipn.Mask.length = 4 → s.Family = some unix.AF_INET) ∧
    (s.Family = some unix.AF_INET6 → ipn.Mask.length = 16) ∧
    (s.Family = some unix.AF_INET ↔ ip.To4 ≠ none) ∧
    (s.Family = some unix.AF_INET6 ↔ ip.To4 = none) := by
  have hf : s.Family = if ip.To4 ≠ none then some unix.AF_INET else some unix.AF_INET6 := by
    simp [Static.Family, Static.Address, hd, hp]
  have hm : s.Mask = some ipn.Mask := by simp [Static.Mask, hd, hp]
  have hcases := net.ParseCIDR_cases d.CIDR ip ipn hp
  have h4 : ipn.Mask.length = 4 → ip.To4 ≠ none := by
    intro h
    rcases hcases with ⟨⟨a, b, c, e, rfl⟩, -⟩ | h16
    · rw [net.To4_IPv4]; simp
    · omega
  refine ⟨hm, ?_, ?_, ?_, ?_, ?_, ?_⟩
  · rcases hcases with ⟨-, h⟩ | h
    · exact Or.inl h
    · exact Or.inr h
  · rw [hf]; split
    · exact Or.inl rfl
    · exact Or.inr rfl
  · intro h
    rw [hf, if_pos (h4 h)]
  · intro h
    rcases hcases with ⟨-, hl⟩ | h16
    · rw [hf, if_pos (h4 hl)] at h
      simp [unix.AF_INET, unix.AF_INET6] at h
    · exact h16
  · rw [hf]
    split <;> simp_all [unix.AF_INET, unix.AF_INET6]
  · rw [hf]
    split <;> simp_all [unix.AF_INET, unix.AF_INET6]

/-- C19 at the address 192.168.1.10/24. -/
theorem Family_follows_address_witness :
    (⟨some ⟨"eth0", "192.168.1.10/24", 0, []⟩, none⟩ : Static).Mask = some [255, 255, 255, 0] ∧
    (⟨some ⟨"eth0", "192.168.1.10/24", 0, []⟩, none⟩ : Static).Family = some unix.AF_INET :=
  ⟨(Family_follows_address ⟨some ⟨"eth0", "192.168.1.10/24", 0, []⟩, none⟩
      ⟨"eth0", "192.168.1.10/24", 0, []⟩ (net.IPv4 192 168 1 10)
      ⟨[192, 168, 1, 0], [255, 255, 255, 0]⟩ rfl (by decide)).1,
    (Family_follows_address ⟨some ⟨"eth0", "192.168.1.10/24", 0, []⟩, none⟩
      ⟨"eth0", "192.168.1.10/24", 0, []⟩ (net.IPv4 192 168 1 10)
      ⟨[192, 168, 1, 0], [255, 255, 255, 0]⟩ rfl (by decide)).2.2.2.1 rfl⟩

/-- C19 fails as stated: the CIDR ::ffff:1.2.3.4/120 is well formed and is an IPv6
CIDR, Mask() is 16 bytes long, and Family() is AF_INET. -/
theorem Family_v4_mapped_counterexample :
    (net.ParseCIDR "::ffff:1.2.3.4/120").isSome = true ∧
    (⟨some ⟨"eth0", "::ffff:1.2.3.4/120", 0, []⟩, none⟩ : Static).Mask.map List.length
      = some 16 ∧
    (⟨some ⟨"eth0", "::ffff:1.2.3.4/120", 0, []⟩, none⟩ : Static).Family
      = some unix.AF_INET := by
  decide

/-- C20. For a Static address with a device, Routes() returns without a fault one
route for each entry of Device.Routes, in the same order; route i has as Dest the
network that ParseCIDR reads from entry i's Network, nil when it does not parse,
and as Router the address that ParseIP reads from entry i's Gateway, nil when it
does not parse. -/
theorem Routes_one_per_entry (s : Static) (d : machine.Device) (hd : s.Device = some d) :
    s.Routes = some (d.Routes.map fun route =>
      ⟨(net.ParseCIDR route.Network).map (·.2), net.ParseIP route.Gateway⟩) ∧
    (∃ routes, s.Routes = some routes ∧ routes.length = d.Routes.length ∧
      ∀ (i : Nat) (route : machine.Route), d.Routes[i]? = some route →
        routes[i]? = some (Route.mk ((net.ParseCIDR route.Network).map (·.2))
          (net.ParseIP route.Gateway))) ∧
    (d.Routes = [] → s.Routes = some []) := by
  have h : s.Routes = some (d.Routes.map fun route =>
      ⟨(net.ParseCIDR route.Network).map (·.2), net.ParseIP route.Gateway⟩) := by
    simp [Static.Routes, hd, Routes_foldl_eq_map]
  refine ⟨h, ⟨_, h, by simp, ?_⟩, ?_⟩
  · intro i route hi
    rw [List.getElem?_map, hi]
    rfl
  · intro he
    rw [h, he]; rfl

/-- C20 at a device with three routes, the second with a gateway that does not
parse, the third with a network that does not parse. -/
theorem Routes_one_per_entry_witness :
    (⟨some ⟨"eth0", "10.0.0.2/24", 0,
        [⟨"10.1.2.3/8", "10.0.0.1"⟩, ⟨"192.168.0.0/16", "gateway"⟩, ⟨"0.0.0.0", "10.0.0.1"⟩]⟩,
      none⟩ : Static).Routes
      = some [⟨some ⟨[10, 0, 0, 0], [255, 0, 0, 0]⟩, some (net.IPv4 10 0 0 1)⟩,
          ⟨some ⟨[192, 168, 0, 0], [255, 255, 0, 0]⟩, none⟩,
          ⟨none, some (net.IPv4 10 0 0 1)⟩] :=
  (Routes_one_per_entry _ ⟨"eth0", "10.0.0.2/24", 0,
    [⟨"10.1.2.3/8", "10.0.0.1"⟩, ⟨"192.168.0.0/16", "gateway"⟩, ⟨"0.0.0.0", "10.0.0.1"⟩]⟩
    rfl).1.trans (by decide)

end address

namespace containerdrunner

/-- An import of requests that can all be imported tries and imports every one of
them, in order. -/
theorem Import_all (i : Importer) : ∀ (reqs : List ImportRequest) (st : Store),
    (∀ req ∈ reqs, req.Path ∈ st.archives) →
    i.Import reqs st
      = (none, Store.mk st.archives (st.tried ++ reqs.map (fun req => req.Path))
          (st.images ++ reqs.map (fun req => (i.ns, req))))
  | [], st, _ => by simp [Importer.Import]
  | req :: reqs, st, h => by
    have h1 : req.Path ∈ st.archives := h req (List.mem_cons_self _ _)
    have h2 : ∀ r ∈ reqs, r.Path ∈ st.archives := fun r hr => h r (List.mem_cons_of_mem _ hr)
    rw [Importer.Import, if_pos h1,
      Import_all i reqs ⟨st.archives, st.tried ++ [req.Path], st.images ++ [(i.ns, req)]⟩ h2]
    simp

/-- An import stops at the first request that cannot be imported. -/
theorem Import_stops (i : Importer) (bad : ImportRequest) (post : List ImportRequest) :
    ∀ (pre : List ImportRequest) (st : Store),
    (∀ req ∈ pre, req.Path ∈ st.archives) → bad.Path ∉ st.archives →
    i.Import (pre ++ bad :: post) st
      = (some ("error importing " ++ bad.Path),
          Store.mk st.archives (st.tried ++ (pre ++ [bad]).map (fun req => req.Path))
            (st.images ++ pre.map (fun req => (i.ns, req))))
  | [], st, _, hb => by simp [Importer.Import, hb]
  | req :: pre, st, h, hb => by
    have h1 : req.Path ∈ st.archives := h req (List.mem_cons_self _ _)
    have h2 : ∀ r ∈ pre, r.Path ∈ st.archives := fun r hr => h r (List.mem_cons_of_mem _ hr)
    rw [List.cons_append, Importer.Import, if_pos h1,
      Import_stops i bad post pre ⟨st.archives, st.tried ++ [req.Path],
        st.images ++ [(i.ns, req)]⟩ h2 hb]
    simp

/-- An import that returns no error met only requests that can be imported. -/
theorem Import_none (i : Importer) : ∀ (reqs : List ImportRequest) (st : Store),
    (i.Import reqs st).1 = none → ∀ req ∈ reqs, req.Path ∈ st.archives
  | [], _, _ => by simp
  | req :: reqs, st, h => by
    rw [Importer.Import] at h
    split at h
    · next h1 =>
      intro r hr
      rcases List.mem_cons.1 hr with rfl | hr
      · exact h1
      · exact Import_none i reqs _ h r hr
    · simp at h

/-- C11. Import takes the requests in list order: it returns no error exactly when
every request can be imported, and then has tried and imported all of them in
order; at the first request that cannot be imported it returns an error naming
that request, has tried the requests up to and including that one and none after
it, and the images of all the earlier requests stay imported. -/
theorem Import_sequential (i : Importer) (reqs : List ImportRequest) (st : Store) :
    ((i.Import reqs st).1 = none ↔ ∀ req ∈ reqs, req.Path ∈ st.archives) ∧
    ((∀ req ∈ reqs, req.Path ∈ st.archives) →
      (i.Import reqs st).2.tried = st.tried ++ reqs.map (fun req => req.Path) ∧
      (i.Import reqs st).2.images = st.images ++ reqs.map (fun req => (i.ns, req))) ∧
    (∀ pre bad post, reqs = pre ++ bad :: post →
      (∀ req ∈ pre, req.Path ∈ st.archives) → bad.Path ∉ st.archives →
      (i.Import reqs st).1 = some ("error importing " ++ bad.Path) ∧
      (i.Import reqs st).2.tried = st.tried ++ (pre ++ [bad]).map (fun req => req.Path) ∧
      (i.Import reqs st).2.images = st.images ++ pre.map (fun req => (i.ns, req))) := by
  refine ⟨⟨Import_none i reqs st, fun h => by rw [Import_all i reqs st h]⟩, ?_, ?_⟩
  · intro h
    rw [Import_all i reqs st h]
    exact ⟨rfl, rfl⟩
  · intro pre bad post he hp hb
    rw [he, Import_stops i bad post pre st hp hb]
    exact ⟨rfl, rfl, rfl⟩

end containerdrunner

namespace services

/-- C12. Whatever the context and the configuration, PreFunc is one call of the
importer's Import, for the namespace "system" at the system containerd address,
with the single request for "/usr/images/trustd.tar" under the index name
"talos/trustd"; PreFunc returns what that call returns, so it returns an error
exactly when the import does. -/
theorem Trustd_PreFunc_imports_once {W Err Ctx : Type}
    (Import : containerdrunner.Importer → List containerdrunner.ImportRequest → W →
      Option Err × W)
    (ctx : Ctx) (config : Config) (w : W) :
    Trustd.PreFunc Import ctx config w
      = Import ⟨"system", [.WithContainerdAddress "/run/system/containerd/containerd.sock"]⟩
          [⟨"/usr/images/trustd.tar", [.WithIndexName "talos/trustd"]⟩] w ∧
    ((Trustd.PreFunc Import ctx config w).1 = none ↔
      (Import ⟨"system", [.WithContainerdAddress "/run/system/containerd/containerd.sock"]⟩
          [⟨"/usr/images/trustd.tar", [.WithIndexName "talos/trustd"]⟩] w).1 = none) := by
  have h : Trustd.PreFunc Import ctx config w
      = Import ⟨"system", [.WithContainerdAddress "/run/system/containerd/containerd.sock"]⟩
          [⟨"/usr/images/trustd.tar", [.WithIndexName "talos/trustd"]⟩] w := by
    have e : constants.SystemContainerdAddress = "/run/system/containerd/containerd.sock" := by
      decide
    simp only [Trustd.PreFunc, containerdrunner.NewImporter, e,
      constants.SystemContainerdNamespace]
  exact ⟨h, by rw [h]⟩

/-- C17. For every configuration the id of Trustd is "trustd" and the id of
UdevdTrigger is "udevd-trigger", two different constants; the runner each service
builds carries as id in its launch arguments the id of the service, and is built
without error. -/
theorem service_ids (config other : Config) :
    Trustd.ID config = "trustd" ∧ UdevdTrigger.ID config = "udevd-trigger" ∧
    Trustd.ID config ≠ UdevdTrigger.ID other ∧
    (Trustd.Runner config).1.args.ID = Trustd.ID config ∧
    (UdevdTrigger.Runner config).1.args.ID = UdevdTrigger.ID config ∧
    (Trustd.Runner config).2 = none ∧ (UdevdTrigger.Runner config).2 = none := by
  refine ⟨rfl, rfl, ?_, rfl, rfl, rfl, rfl⟩
  simp only [Trustd.ID, UdevdTrigger.ID]
  decide

end services

namespace ctrd

theorem addToPods_members_perm (info : Info) : ∀ gs : List Group,
    ((addToPods info gs).flatMap Group.members).Perm (gs.flatMap Group.members ++ [info])
  | [] => by simp [addToPods, Group.members]
  | g :: gs => by
    unfold addToPods
    split
    · simp only [List.flatMap_cons, Group.members, List.cons_append, List.append_assoc]
      refine List.Perm.cons _ (List.Perm.append_left _ ?_)
      simp only [List.nil_append]
      exact (List.perm_append_singleton info _).symm
    · simp only [List.flatMap_cons, List.append_assoc]
      exact List.Perm.append_left _ (addToPods_members_perm info gs)

theorem groupInto_members_perm : ∀ (infos : List Info) (gs : List Group),
    ((groupInto infos gs).flatMap Group.members).Perm (gs.flatMap Group.members ++ infos)
  | [], gs => by simp [groupInto]
  | info :: infos, gs => by
    unfold groupInto
    refine (groupInto_members_perm infos (addToPods info gs)).trans ?_
    have h := (addToPods_members_perm info gs).append_right infos
    simpa using h

theorem addToPods_wellFormed (info : Info) : ∀ gs : List Group,
    (∀ g ∈ gs, g.wellFormed) → ∀ g ∈ addToPods info gs, g.wellFormed
  | [], _, g, hg => by
    simp only [addToPods, List.mem_singleton] at hg
    subst hg
    exact ⟨by simp [Group.members], fun _ => rfl⟩
  | g0 :: gs, h, g, hg => by
    unfold addToPods at hg
    split at hg
    · next hc =>
      rcases List.mem_cons.1 hg with rfl | hg
      · have h0 := h g0 (List.mem_cons_self _ _)
        constructor
        · intro i hi
          simp only [Group.members, List.mem_cons, List.mem_append, List.mem_singleton,
            List.not_mem_nil, or_false] at hi
          rcases hi with rfl | hi | rfl
          · exact h0.1 _ (by simp [Group.members])
          · exact h0.1 _ (by simp [Group.members, hi])
          · exact hc.2.symm
        · intro hk
          exact absurd (hc.2.symm.trans hk) hc.1
      · exact h g (List.mem_cons_of_mem _ hg)
    · rcases List.mem_cons.1 hg with rfl | hg
      · exact h g (List.mem_cons_self _ _)
      · exact addToPods_wellFormed info gs (fun x hx => h x (List.mem_cons_of_mem _ hx)) g hg

theorem addToPods_keys_subset (info : Info) : ∀ (gs : List Group) (k : PodKey),
    k ∈ (addToPods info gs).filterMap (·.key) →
      k ∈ gs.filterMap (·.key) ∨ podKey info = some k
  | [], k, hk => by
    simp only [addToPods, List.mem_filterMap, List.mem_singleton] at hk
    obtain ⟨g, rfl, hg⟩ := hk
    exact Or.inr hg
  | g0 :: gs, k, hk => by
    unfold addToPods at hk
    split at hk
    · left
      simpa [List.filterMap_cons] using hk
    · simp only [List.mem_filterMap, List.mem_cons] at hk ⊢
      obtain ⟨g, hg | hg, hgk⟩ := hk
      · exact Or.inl ⟨g, Or.inl hg, hgk⟩
      · rcases addToPods_keys_subset info gs k (List.mem_filterMap.2 ⟨g, hg, hgk⟩) with h | h
        · obtain ⟨g1, hg1, hk1⟩ := List.mem_filterMap.1 h
          exact Or.inl ⟨g1, Or.inr hg1, hk1⟩
        · exact Or.inr h

theorem addToPods_keys_nodup (info : Info) : ∀ gs : List Group,
    (gs.filterMap (·.key)).Nodup → ((addToPods info gs).filterMap (·.key)).Nodup
  | [], _ => by
    cases h : podKey info <;> simp [addToPods, List.filterMap_cons, h]
  | g0 :: gs, hn => by
    unfold addToPods
    split
    · simpa [List.filterMap_cons] using hn
    · next hc =>
      cases hk : g0.key with
      | none =>
        simp only [List.filterMap_cons, hk] at hn ⊢
        exact addToPods_keys_nodup info gs hn
      | some k =>
        simp only [List.filterMap_cons, hk, List.nodup_cons] at hn ⊢
        refine ⟨fun hmem => ?_, addToPods_keys_nodup info gs hn.2⟩
        rcases addToPods_keys_subset info gs k hmem with h | h
        · exact hn.1 h
        · exact hc ⟨by simp [h], hk.trans h.symm⟩

theorem groupInto_invariant : ∀ (infos : List Info) (gs : List Group),
    (∀ g ∈ gs, g.wellFormed) → (gs.filterMap (·.key)).Nodup →
    (∀ g ∈ groupInto infos gs, g.wellFormed) ∧ ((groupInto infos gs).filterMap (·.key)).Nodup
  | [], _, h1, h2 => ⟨h1, h2⟩
  | info :: infos, gs, h1, h2 =>
    groupInto_invariant infos (addToPods info gs) (addToPods_wellFormed info gs h1)
      (addToPods_keys_nodup info gs h2)

/-- The groups of a namespace are well formed and no two have the same pod
identity. -/
theorem groups_invariant (infos : List Info) :
    (∀ g ∈ groups infos, g.wellFormed) ∧ ((groups infos).filterMap (·.key)).Nodup :=
  groupInto_invariant infos [] (by simp) (by simp)

/-- The entries a listing shows are the entries of the containers of the
namespace, each once. -/
theorem listed_perm (i : Inspector) :
    i.listed.Perm (i.containers.map (containerInfo i.containers true)) := by
  have h := (groupInto_members_perm i.containers []).map (containerInfo i.containers true)
  simp only [List.flatMap_nil, List.nil_append] at h
  refine List.Perm.trans (List.Perm.of_eq ?_) h
  simp only [Inspector.listed, Inspector.Pods, groups, List.flatMap_map, toPod,
    List.map_flatMap]

/-- The display name of an entry does not depend on how the image is shown. -/
theorem containerInfo_resolve (all : List Info) (info : Info) :
    (containerInfo all false info).ID = (containerInfo all true info).ID ∧
    (containerInfo all false info).Name = (containerInfo all true info).Name ∧
    (containerInfo all false info).Display = (containerInfo all true info).Display ∧
    (containerInfo all false info).Sandbox = (containerInfo all true info).Sandbox := by
  unfold containerInfo
  split <;> exact ⟨rfl, rfl, rfl, rfl⟩

theorem containerInfo_ID (all : List Info) (resolve : Bool) (info : Info) :
    (containerInfo all resolve info).ID = info.ID := by
  unfold containerInfo
  split <;> rfl

/-- C13. Pods() returns no error and partitions the containers of the namespace:
the entries of all pods together are the entries of the containers, each once;
the containers of one pod all have the pod identity of the pod (pod-namespace and
pod-name labels, sandbox annotation), no two pods have the same identity, and a
container without the pod labels is alone in its pod; a pod with identity
(namespace, name, sandbox) is named `<namespace>/<name>`, and in it a container
without a container-name label is displayed as `<namespace>/<name>`, one labelled
`c` as `<namespace>/<name>:c`; the pod of a container without the pod labels has
the id of the container as its name and as id, name and display name of its one
entry.  On the containers of `TestPodsK8s` this gives the one pod ns1/fun with the
entries ns1/fun and ns1/fun:run. -/
theorem Pods_partition (i : Inspector) :
    i.Pods.2 = none ∧
    i.Pods.1 = (groups i.containers).map (toPod i.containers) ∧
    (i.Pods.1.flatMap (·.Containers)).Perm
      (i.containers.map (containerInfo i.containers true)) ∧
    (∀ g ∈ groups i.containers, ∀ info ∈ g.members, podKey info = g.key) ∧
    ((groups i.containers).filterMap (·.key)).Nodup ∧
    (∀ g ∈ groups i.containers, ∀ ns name sb, g.key = some (ns, name, sb) →
      (toPod i.containers g).Name = ns ++ "/" ++ name ∧
      ∀ info ∈ g.members,
        (info.Labels.lookup "io.kubernetes.container.name" = none →
          (containerInfo i.containers true info).Display = ns ++ "/" ++ name) ∧
        (∀ c, info.Labels.lookup "io.kubernetes.container.name" = some c →
          (containerInfo i.containers true info).Display = ns ++ "/" ++ name ++ ":" ++ c)) ∧
    (∀ g ∈ groups i.containers, g.key = none →
      (toPod i.containers g).Name = g.first.ID ∧
      (toPod i.containers g).Containers = [containerInfo i.containers true g.first] ∧
      (containerInfo i.containers true g.first).ID = g.first.ID ∧
      (containerInfo i.containers true g.first).Name = g.first.ID ∧
      (containerInfo i.containers true g.first).Display = g.first.ID) ∧
    k8sContainers.Pods.1.map (fun p => (p.Name, p.Containers.map (·.Display)))
      = [("ns1/fun", ["ns1/fun", "ns1/fun:run"])] := by
  obtain ⟨hwf, hnd⟩ := groups_invariant i.containers
  refine ⟨rfl, rfl, listed_perm i, fun g hg => (hwf g hg).1, hnd, ?_, ?_, by decide⟩
  · intro g hg ns name sb hk
    have hfirst : podKey g.first = some (ns, name, sb) :=
      ((hwf g hg).1 g.first (by simp [Group.members])).trans hk
    refine ⟨by simp [toPod, podName, hfirst], fun info hinfo => ?_⟩
    have hi : podKey info = some (ns, name, sb) := ((hwf g hg).1 info hinfo).trans hk
    constructor
    · intro hc
      simp [containerInfo, hi, hc]
    · intro c hc
      simp [containerInfo, hi, hc]
  · intro g hg hk
    have hfirst : podKey g.first = none :=
      ((hwf g hg).1 g.first (by simp [Group.members])).trans hk
    have hrest : g.rest = [] := (hwf g hg).2 hk
    refine ⟨by simp [toPod, podName, hfirst], by simp [toPod, Group.members, hrest], ?_, ?_, ?_⟩ <;>
      simp [containerInfo, hfirst]

/-- C14. A name that is neither the id of a container of the namespace nor the
display name `<namespace>/<pod>` or `<namespace>/<pod>:<container>` of one is not
found: Container(name) returns a nil container and a nil error. -/
theorem Container_not_found (i : Inspector) (name : String)
    (h : ∀ info ∈ i.containers,
      info.ID ≠ name ∧ (containerInfo i.containers false info).Display ≠ name) :
    i.Container name = (none, none) := by
  have h1 : (i.containers.map (containerInfo i.containers false)).find?
      (fun c => c.Display = name) = none := by
    rw [List.find?_eq_none]
    intro c hc
    obtain ⟨info, hinfo, rfl⟩ := List.mem_map.1 hc
    simpa using (h info hinfo).2
  have h2 : (i.containers.map (containerInfo i.containers false)).find?
      (fun c => c.ID = name) = none := by
    rw [List.find?_eq_none]
    intro c hc
    obtain ⟨info, hinfo, rfl⟩ := List.mem_map.1 hc
    rw [containerInfo_ID]
    simpa using (h info hinfo).1
  simp only [Inspector.Container, h1, h2]

/-- C14 at the names `TestContainerK8s` looks up in vain: a wrong container name
and a wrong namespace. -/
theorem Container_not_found_witness :
    k8sContainers.Container "ns1/fun:go" = (none, none) ∧
    k8sContainers.Container "ns2/fun:run" = (none, none) :=
  ⟨Container_not_found k8sContainers "ns1/fun:go" (by decide),
    Container_not_found k8sContainers "ns2/fun:run" (by decide)⟩

/-- C15, as it holds. For an entry that Pods() lists and whose display name no
other listed entry has, Container of that display name returns, with a nil error,
an entry with the same ID, Name, Display and Sandbox. -/
theorem Container_agrees_with_Pods (i : Inspector) (e : Container) (he : e ∈ i.listed)
    (hu : ∀ other ∈ i.listed, other.Display = e.Display → other = e) :
    ∃ c, i.Container e.Display = (some c, none) ∧
      c.ID = e.ID ∧ c.Name = e.Name ∧ c.Display = e.Display ∧ c.Sandbox = e.Sandbox := by
  have hperm := listed_perm i
  obtain ⟨info, hinfo, rfl⟩ := List.mem_map.1 (hperm.mem_iff.1 he)
  have hex : ((i.containers.map (containerInfo i.containers false)).find?
      (fun c => c.Display = (containerInfo i.containers true info).Display)).isSome = true := by
    rw [List.find?_isSome]
    exact ⟨containerInfo i.containers false info, List.mem_map.2 ⟨info, hinfo, rfl⟩,
      by simpa using (containerInfo_resolve i.containers info).2.2.1⟩
  obtain ⟨c, hc⟩ := Option.isSome_iff_exists.1 hex
  have hcd : c.Display = (containerInfo i.containers true info).Display := by
    simpa using List.find?_some hc
  obtain ⟨j, hj, rfl⟩ := List.mem_map.1 (List.mem_of_find?_eq_some hc)
  obtain ⟨r1, r2, r3, r4⟩ := containerInfo_resolve i.containers j
  have hje : containerInfo i.containers true j = containerInfo i.containers true info :=
    hu _ (hperm.mem_iff.2 (List.mem_map.2 ⟨j, hj, rfl⟩)) (r3 ▸ hcd)
  refine ⟨containerInfo i.containers false j, by simp only [Inspector.Container, hc], ?_, ?_,
    ?_, ?_⟩
  · rw [r1, hje]
  · rw [r2, hje]
  · rw [r3, hje]
  · rw [r4, hje]

/-- C15 at the containers of `TestContainerK8s`: the entry of test2, displayed as
ns1/fun:run, is found under that name. -/
theorem Container_agrees_with_Pods_witness :
    ∃ c, k8sContainers.Container "ns1/fun:run" = (some c, none) ∧
      c.ID = "test2" ∧ c.Name = "run" ∧ c.Display = "ns1/fun:run" ∧ c.Sandbox = "sandbox" :=
  Container_agrees_with_Pods k8sContainers
    ⟨"test2", "run", "ns1/fun:run", "sandbox", "docker.io/library/busybox:1.30.1", "RUNNING"⟩
    (by decide) (by decide)

/-- C15 fails as stated: with two sandbox containers of pods of the same namespace
and name, Pods() lists the entry of the container new, displayed as ns1/fun, and
Container("ns1/fun") returns the entry of the container old. -/
theorem Container_ambiguous_counterexample :
    (⟨"new", "new", "ns1/fun", "/var/log/pods/new", "pause", "RUNNING"⟩ : Container)
      ∈ twoSandboxes.listed ∧
    (twoSandboxes.Container "ns1/fun").1.map (·.ID) = some "old" ∧
    ¬ ∀ e ∈ twoSandboxes.listed, ∃ c, twoSandboxes.Container e.Display = (some c, none) ∧
      c.ID = e.ID ∧ c.Name = e.Name ∧ c.Display = e.Display ∧ c.Sandbox = e.Sandbox := by
  refine ⟨by decide, by decide, fun h => ?_⟩
  obtain ⟨c, hc, hid, -⟩ :=
    h ⟨"new", "new", "ns1/fun", "/var/log/pods/new", "pause", "RUNNING"⟩ (by decide)
  have e : twoSandboxes.Container "ns1/fun"
      = (some ⟨"old", "old", "ns1/fun", "/var/log/pods/old", "sha256:0", "STOPPED"⟩, none) := by
    decide
  rw [e] at hc
  simp only [Prod.mk.injEq, Option.some.injEq, and_true] at hc
  rw [← hc] at hid
  exact absurd hid (by decide)

end ctrd

namespace net

/-- The first byte that `CIDRMask` writes when fewer than 8 bits are left. -/
theorem prefixByte_zero (n : Nat) :
    prefixByte n 0 = if n ≥ 8 then 0xff else 0xff - (0xff >>> n) := by
  split
  · next h =>
    have h0 : 0 < n := by omega
    have h1 : 1 < n := by omega
    have h2 : 2 < n := by omega
    have h3 : 3 < n := by omega
    have h4 : 4 < n := by omega
    have h5 : 5 < n := by omega
    have h6 : 6 < n := by omega
    have h7 : 7 < n := by omega
    simp [prefixByte, h0, h1, h2, h3, h4, h5, h6, h7]
  · next h =>
    have h8 : n < 8 := by omega
    interval_cases n <;> rfl

/-- A later byte of the prefix mask is a byte of the prefix mask of 8 bits less. -/
theorem prefixByte_succ (n i : Nat) : prefixByte n (i + 1) = prefixByte (n - 8) i := by
  have e : ∀ k, (8 * (i + 1) + k < n) = (8 * i + k < n - 8) := by
    intro k
    apply propext
    omega
  have e0 : (8 * (i + 1) < n) = (8 * i < n - 8) := by
    apply propext
    omega
  simp only [prefixByte, e, e0]

/-- The mask that the loop of `CIDRMask` writes is the prefix mask of the claim. -/
theorem CIDRMaskLoop_eq_prefixMask : ∀ (l n : Nat), CIDRMaskLoop l n = prefixMask n l
  | 0, _ => rfl
  | l + 1, n => by
    have hr : prefixMask n (l + 1) = prefixByte n 0 :: prefixMask (n - 8) l := by
      simp only [prefixMask, List.range_succ_eq_map, List.map_cons, List.map_map]
      congr 1
      apply List.map_congr_left
      intro i _
      exact prefixByte_succ n i
    rw [hr, prefixByte_zero]
    unfold CIDRMaskLoop
    split
    · rw [CIDRMaskLoop_eq_prefixMask l (n - 8)]
    · next h =>
      rw [CIDRMaskLoop_eq_prefixMask l 0]
      have h8 : n - 8 = 0 := by omega
      rw [h8]

/-- The mask `ParseCIDR` builds for an IPv4 address is written by the loop. -/
theorem CIDRMask_getD_v4 (ones : Nat) (h : ones ≤ 32) :
    (CIDRMask ones (8 * IPv4len)).getD [] = CIDRMaskLoop 4 ones := by
  have h1 : ¬ 32 < ones := by omega
  simp [CIDRMask, h1, IPv4len, IPv6len]

/-- The mask `ParseCIDR` builds for an IPv6 address is written by the loop. -/
theorem CIDRMask_getD_v6 (ones : Nat) (h : ones ≤ 128) :
    (CIDRMask ones (8 * IPv6len)).getD [] = CIDRMaskLoop 16 ones := by
  have h1 : ¬ 128 < ones := by omega
  simp [CIDRMask, h1, IPv4len, IPv6len]

/-- What `ParseCIDR` returns for "a/n": the address is what `parseIPv4`, or else
`parseIPv6`, reads from the text before the stroke, the text after the stroke is
the decimal number `n` and nothing more, and the mask is `CIDRMask` of `n` for
the length of the address. -/
theorem ParseCIDR_spec (s : String) (ip : IP) (ipn : IPNet)
    (h : ParseCIDR s = some (ip, ipn)) :
    ∃ i, s.toList.indexOf? '/' = some i ∧
      (dtoi (s.toList.drop (i + 1))).2.2 = true ∧
      (dtoi (s.toList.drop (i + 1))).2.1 = (s.toList.drop (i + 1)).length ∧
      ((parseIPv4 (s.toList.take i) = some ip ∧ (dtoi (s.toList.drop (i + 1))).1 ≤ 32 ∧
          ipn.Mask = CIDRMaskLoop 4 (dtoi (s.toList.drop (i + 1))).1) ∨
       (parseIPv4 (s.toList.take i) = none ∧ parseIPv6 (s.toList.take i) = some ip ∧
          (dtoi (s.toList.drop (i + 1))).1 ≤ 128 ∧
          ipn.Mask = CIDRMaskLoop 16 (dtoi (s.toList.drop (i + 1))).1)) := by
  unfold ParseCIDR ParseCIDRChars at h
  split at h
  · simp at h
  · next i hi =>
    refine ⟨i, hi, ?_⟩
    simp only at h
    cases h4 : parseIPv4 (List.take i s.toList) with
    | some ip4 =>
      simp only [h4, Option.isSome_some, if_true] at h
      split at h
      · simp at h
      · rename_i hc
        simp only [Option.some.injEq, Prod.mk.injEq] at h
        obtain ⟨h1, h2⟩ := h
        simp only [not_or, not_lt, Bool.not_eq_false, ne_eq, not_not, IPv4len] at hc
        refine ⟨hc.1, hc.2.1, Or.inl ⟨by rw [h1], by omega, ?_⟩⟩
        rw [← h2]
        exact CIDRMask_getD_v4 _ (by omega)
    | none =>
      simp only [h4, Option.isSome_none, Bool.false_eq_true, if_false] at h
      split at h
      · simp at h
      · next ip6 h6 =>
        split at h
        · simp at h
        · rename_i hc
          simp only [Option.some.injEq, Prod.mk.injEq] at h
          obtain ⟨h1, h2⟩ := h
          simp only [not_or, not_lt, Bool.not_eq_false, ne_eq, not_not, IPv6len] at hc
          refine ⟨hc.1, hc.2.1, Or.inr ⟨rfl, by rw [← h1, h6], by omega, ?_⟩⟩
          rw [← h2]
          exact CIDRMask_getD_v6 _ (by omega)

end net

namespace address

/-- C24. For a Static address with a device whose CIDR "a/n" ParseCIDR accepts:
Address() is the address read from a itself, with its host bits, and not the
network base address that ParseCIDR returns in the network, together with the
mask of the network; the mask is the n-bit prefix mask, of 4 bytes for an address
read as IPv4 and of 16 bytes otherwise, and it is the mask that Mask() returns. -/
theorem Address_keeps_host_bits (s : Static) (d : machine.Device) (ip : net.IP)
    (ipn : net.IPNet) (hd : s.Device = some d) (hp : net.ParseCIDR d.CIDR = some (ip, ipn)) :
    s.Address = some ⟨ip, ipn.Mask⟩ ∧ s.Mask = some ipn.Mask ∧
    ∃ i, d.CIDR.toList.indexOf? '/' = some i ∧
      (net.dtoi (d.CIDR.toList.drop (i + 1))).2.2 = true ∧
      (net.dtoi (d.CIDR.toList.drop (i + 1))).2.1 = (d.CIDR.toList.drop (i + 1)).length ∧
      ((net.parseIPv4 (d.CIDR.toList.take i) = some ip ∧
          ipn.Mask = net.prefixMask (net.dtoi (d.CIDR.toList.drop (i + 1))).1 4) ∨
       (net.parseIPv4 (d.CIDR.toList.take i) = none ∧
          net.parseIPv6 (d.CIDR.toList.take i) = some ip ∧
          ipn.Mask = net.prefixMask (net.dtoi (d.CIDR.toList.drop (i + 1))).1 16)) := by
  refine ⟨by simp [Static.Address, hd, hp], by simp [Static.Mask, hd, hp], ?_⟩
  obtain ⟨i, hi, hb, hl, hc⟩ := net.ParseCIDR_spec d.CIDR ip ipn hp
  refine ⟨i, hi, hb, hl, ?_⟩
  rcases hc with ⟨h4, -, hm⟩ | ⟨h4, h6, -, hm⟩
  · exact Or.inl ⟨h4, by rw [hm, net.CIDRMaskLoop_eq_prefixMask]⟩
  · exact Or.inr ⟨h4, h6, by rw [hm, net.CIDRMaskLoop_eq_prefixMask]⟩

/-- C24 at the CIDR "192.168.1.10/24": ParseCIDR returns the network
192.168.1.0/24, and Address() is 192.168.1.10 with the mask 255.255.255.0, which
Mask() returns too. -/
theorem Address_keeps_host_bits_witness :
    net.ParseCIDR "192.168.1.10/24"
      = some (net.IPv4 192 168 1 10, ⟨[192, 168, 1, 0], [255, 255, 255, 0]⟩) ∧
    (⟨some ⟨"eth0", "192.168.1.10/24", 0, []⟩, none⟩ : Static).Address
      = some ⟨net.IPv4 192 168 1 10, [255, 255, 255, 0]⟩ ∧
    (⟨some ⟨"eth0", "192.168.1.10/24", 0, []⟩, none⟩ : Static).Mask
      = some [255, 255, 255, 0] :=
  ⟨by decide,
   (Address_keeps_host_bits ⟨some ⟨"eth0", "192.168.1.10/24", 0, []⟩, none⟩
      ⟨"eth0", "192.168.1.10/24", 0, []⟩ (net.IPv4 192 168 1 10)
      ⟨[192, 168, 1, 0], [255, 255, 255, 0]⟩ rfl (by decide)).1,
   (Address_keeps_host_bits ⟨some ⟨"eth0", "192.168.1.10/24", 0, []⟩, none⟩
      ⟨"eth0", "192.168.1.10/24", 0, []⟩ (net.IPv4 192 168 1 10)
      ⟨[192, 168, 1, 0], [255, 255, 255, 0]⟩ rfl (by decide)).2.1⟩

/-- C25 fails on the code. For the device CIDR "10.0.0.1", which has no prefix
length, Valid() is true, ParseCIDR fails and returns a nil network, and Address(),
Mask() and Family() each fault on the nil pointer. -/
theorem Address_faults_on_malformed_CIDR :
    (⟨some ⟨"eth0", "10.0.0.1", 0, []⟩, none⟩ : Static).Valid = true ∧
    net.ParseCIDR "10.0.0.1" = none ∧
    (⟨some ⟨"eth0", "10.0.0.1", 0, []⟩, none⟩ : Static).Address = none ∧
    (⟨some ⟨"eth0", "10.0.0.1", 0, []⟩, none⟩ : Static).Mask = none ∧
    (⟨some ⟨"eth0", "10.0.0.1", 0, []⟩, none⟩ : Static).Family = none := by
  decide

end address

namespace aws

variable {W Body Cert Rest Err : Type}

/-- C21. IsEC2 returns true exactly when every step succeeded: the request to the
PKCS7 endpoint returned a response with status 200, the body was read, the body
between the PKCS7 PEM markers decoded to a block, the bytes of the block parsed
as a PKCS7 structure, the embedded AWS public certificate decoded and parsed, and
the PKCS7 structure with its certificate list replaced by exactly that one
certificate verified; in every other case the result, a boolean, is false. -/
theorem IsEC2_fails_closed (env : Env W Body Cert Rest Err) (w : W) :
    (IsEC2 env w).1 = true ↔
      ∃ resp w1 data w2 block p7 certBlock certificate,
        env.Get AWSPKCS7Endpoint w = (.ok resp, w1) ∧
        resp.StatusCode = 200 ∧
        env.ReadAll resp.Body w1 = (.ok data, w2) ∧
        env.Decode (bytes "-----BEGIN PKCS7-----\n" ++ data ++ bytes "\n-----END PKCS7-----\n")
          = some block ∧
        env.Parse block.Bytes = .ok p7 ∧
        env.Decode (bytes AWSPublicCertificate) = some certBlock ∧
        env.ParseCertificate certBlock.Bytes = .ok certificate ∧
        env.Verify ⟨[certificate], p7.rest⟩ = none := by
  unfold IsEC2
  rcases hg : env.Get AWSPKCS7Endpoint w with ⟨_ | resp, w1⟩
  · simp
  · by_cases hs : resp.StatusCode = 200
    · rcases hr : env.ReadAll resp.Body w1 with ⟨_ | data, w2⟩
      · simp [hs, StatusOK, hr]
      · simp only [hs, StatusOK, ne_eq, not_true_eq_false, if_false, hr]
        cases hd : env.Decode
            (bytes "-----BEGIN PKCS7-----\n" ++ data ++ bytes "\n-----END PKCS7-----\n") with
        | none =>
          refine ⟨fun h => by simp at h, ?_⟩
          rintro ⟨resp1, w3, data1, w4, block, p7, certBlock, certificate,
            h1, -, h3, h4, -, -, -, -⟩
          simp only [Prod.mk.injEq, Except.ok.injEq] at h1
          obtain ⟨rfl, rfl⟩ := h1
          rw [hr] at h3
          simp only [Prod.mk.injEq, Except.ok.injEq] at h3
          obtain ⟨rfl, rfl⟩ := h3
          rw [hd] at h4
          simp at h4
        | some block =>
          cases hp : env.Parse block.Bytes with
          | error e =>
            refine ⟨fun h => by simp [hp] at h, ?_⟩
            rintro ⟨resp1, w3, data1, w4, block1, p7, certBlock, certificate,
              h1, -, h3, h4, h5, -, -, -⟩
            simp only [Prod.mk.injEq, Except.ok.injEq] at h1
            obtain ⟨rfl, rfl⟩ := h1
            rw [hr] at h3
            simp only [Prod.mk.injEq, Except.ok.injEq] at h3
            obtain ⟨rfl, rfl⟩ := h3
            rw [hd] at h4
            simp only [Option.some.injEq] at h4
            subst h4
            rw [hp] at h5
            simp at h5
          | ok p7 =>
            cases hc : env.Decode (bytes AWSPublicCertificate) with
            | none =>
              refine ⟨fun h => by simp [hp, hc] at h, ?_⟩
              rintro ⟨resp1, w3, data1, w4, block1, p71, certBlock, certificate,
                -, -, -, -, -, h6, -, -⟩
              simp at h6
            | some certBlock =>
              cases hx : env.ParseCertificate certBlock.Bytes with
              | error e =>
                refine ⟨fun h => by simp [hp, hc, hx] at h, ?_⟩
                rintro ⟨resp1, w3, data1, w4, block1, p71, certBlock1, certificate,
                  -, -, -, -, -, h6, h7, -⟩
                simp only [Option.some.injEq] at h6
                subst h6
                rw [hx] at h7
                simp at h7
              | ok certificate =>
                cases hv : env.Verify ⟨[certificate], p7.rest⟩ with
                | some e =>
                  refine ⟨fun h => by simp [hp, hc, hx, hv] at h, ?_⟩
                  rintro ⟨resp1, w3, data1, w4, block1, p71, certBlock1, certificate1,
                    h1, -, h3, h4, h5, h6, h7, h8⟩
                  simp only [Prod.mk.injEq, Except.ok.injEq] at h1
                  obtain ⟨rfl, rfl⟩ := h1
                  rw [hr] at h3
                  simp only [Prod.mk.injEq, Except.ok.injEq] at h3
                  obtain ⟨rfl, rfl⟩ := h3
                  rw [hd] at h4
                  simp only [Option.some.injEq] at h4
                  subst h4
                  rw [hp] at h5
                  simp only [Except.ok.injEq] at h5
                  subst h5
                  simp only [Option.some.injEq] at h6
                  subst h6
                  rw [hx] at h7
                  simp only [Except.ok.injEq] at h7
                  subst h7
                  rw [hv] at h8
                  simp at h8
                | none =>
                  exact ⟨fun _ => ⟨resp, w1, data, w2, block, p7, certBlock, certificate,
                    rfl, hs, hr, hd, hp, rfl, hx, hv⟩, fun _ => by simp [hp, hc, hx, hv]⟩
    · refine ⟨fun h => by simp [hs, StatusOK] at h, ?_⟩
      rintro ⟨resp1, w3, data1, w4, block1, p71, certBlock1, certificate1,
        h1, h2, -, -, -, -, -, -⟩
      simp only [Prod.mk.injEq, Except.ok.injEq] at h1
      obtain ⟨rfl, rfl⟩ := h1
      exact absurd h2 hs

end aws

namespace stream

/-- The options after a list of `Size` setters: the last one wins. -/
theorem foldl_Size : ∀ (sizes : List Int) (opts : Options),
    (sizes.map Size).foldl (fun opts setter => setter opts) opts
      = ⟨sizes.getLast?.getD opts.Size⟩
  | [], opts => rfl
  | s :: sizes, opts => by
    rw [List.map_cons, List.foldl_cons, foldl_Size sizes]
    cases sizes with
    | nil => rfl
    | cons t ts =>
      simp only [Size, List.getLast?_cons_cons]
      cases h : (t :: ts).getLast? with
      | none => simp at h
      | some x => rfl

/-- Every chunk the loop sends is non-empty and fits the buffer. -/
theorem readLoop_chunk_bounds (size : Nat) (ctx : Context) :
    ∀ (reads : List ReadResult) (k : Nat), ∀ chunk ∈ (readLoop size ctx k reads).chunks,
      0 < chunk.length ∧ chunk.length ≤ size
  | [], k => by
    intro chunk h
    unfold readLoop at h
    split at h <;> simp at h
  | r :: rest, k => by
    intro chunk h
    unfold readLoop at h
    split at h
    · simp at h
    · split at h
      · simp at h
      · split at h
        · exact readLoop_chunk_bounds size ctx rest (k + 1) chunk h
        · split at h
          · simp at h
          · split at h
            · simp at h
            · simp only [List.mem_cons] at h
              rcases h with rfl | h
              · omega
              · exact readLoop_chunk_bounds size ctx rest (k + 2) chunk h

/-- With a context that is never cancelled, reads without error that fit the
buffer are all delivered, and the first read with an error ends the loop: its
bytes are not sent, and the source and the channel are closed. -/
theorem readLoop_until_error (size : Nat) (ctx : Context) (hctx : ∀ k, ctx k = false)
    (e : ReadResult) (post : List ReadResult) (he : e.err ≠ none) :
    ∀ (pre : List ReadResult) (k : Nat),
      (∀ r ∈ pre, r.err = none ∧ r.data.length ≤ size) →
      ((readLoop size ctx k (pre ++ e :: post)).chunks.flatten = (pre.map (fun r => r.data)).flatten ∧
       (readLoop size ctx k (pre ++ e :: post)).sourceClosed = true ∧
       (readLoop size ctx k (pre ++ e :: post)).channelClosed = true ∧
       (readLoop size ctx k (pre ++ e :: post)).panicked = false)
  | [], k => by
    intro _
    simp [readLoop, hctx, he]
  | r :: pre, k => by
    intro h
    have hr := h r (List.mem_cons_self _ _)
    have ih := fun j => readLoop_until_error size ctx hctx e post he pre j
      (fun x hx => h x (List.mem_cons_of_mem _ hx))
    have hle : ¬ r.data.length > size := by omega
    by_cases h0 : r.data.length = 0
    · have hnil : r.data = [] := List.length_eq_zero.mp h0
      simp [readLoop, hctx, hr.1, h0, ih (k + 1), hnil]
    · simp [readLoop, hctx, hr.1, h0, hle, ih (k + 2)]

/-- C22. A chunker that NewChunker builds without options has Size 1024; built
with Size options, alone or after any other options, it has the Size of the last
one; and every chunk its Read delivers is non-empty and at most Size bytes
long. -/
theorem chunk_size_bounds (source : Source) (setters : List Setter) (sizes : List Int)
    (s : Int) (ctx : Context) :
    (NewChunker source []).options.Size = 1024 ∧
    (NewChunker source (sizes.map Size)).options.Size = sizes.getLast?.getD 1024 ∧
    (NewChunker source (setters ++ [Size s])).options.Size = s ∧
    ∀ chunk ∈ ((NewChunker source setters).Read ctx).chunks,
      0 < chunk.length ∧ (chunk.length : Int) ≤ (NewChunker source setters).options.Size := by
  refine ⟨rfl, ?_, ?_, ?_⟩
  · simp only [NewChunker, foldl_Size]
  · simp [NewChunker, Size, List.foldl_append]
  · intro chunk h
    unfold Stream.Read at h
    split at h
    · simp at h
    · next hs =>
      have hb := readLoop_chunk_bounds _ ctx _ 0 chunk h
      refine ⟨hb.1, ?_⟩
      have := Int.toNat_of_nonneg (not_lt.mp hs)
      omega

/-- With a context that is never cancelled and a source whose reads fit the
buffer, the chunks `Read` delivers, joined in order, are the bytes of the reads
before the first one that returns an error, and after that error the source and
the channel are closed. -/
theorem Read_until_error (c : Stream) (ctx : Context) (hctx : ∀ k, ctx k = false)
    (pre post : List ReadResult) (e : ReadResult) (hs : 0 ≤ c.options.Size)
    (hreads : c.source.reads = pre ++ e :: post)
    (hpre : ∀ r ∈ pre, r.err = none ∧ (r.data.length : Int) ≤ c.options.Size)
    (he : e.err ≠ none) :
    (c.Read ctx).chunks.flatten = (pre.map (fun r => r.data)).flatten ∧
    (c.Read ctx).sourceClosed = true ∧ (c.Read ctx).channelClosed = true ∧
    (c.Read ctx).panicked = false := by
  unfold Stream.Read
  rw [if_neg (not_lt.mpr hs), hreads]
  apply readLoop_until_error _ ctx hctx e post he pre 0
  intro r hr
  have := hpre r hr
  have := Int.toNat_of_nonneg hs
  refine ⟨(hpre r hr).1, ?_⟩
  omega

/-- C26 fails on the code. A source whose first Read returns the three bytes
"abc" together with the error io.EOF, as the contract of io.Reader allows: with a
context that is never cancelled the chunker of the default size delivers no chunk
at all, so the bytes of the call that returned the error are lost; the source and
the channel are closed. -/
theorem Read_drops_bytes_returned_with_error :
    ((NewChunker ⟨[⟨[97, 98, 99], some "EOF"⟩]⟩ []).Read (fun _ => false)).chunks = [] ∧
    ((NewChunker ⟨[⟨[97, 98, 99], some "EOF"⟩]⟩ []).Read (fun _ => false)).chunks.flatten
      ≠ [97, 98, 99] ∧
    ((NewChunker ⟨[⟨[97, 98, 99], some "EOF"⟩]⟩ []).Read (fun _ => false)).sourceClosed = true ∧
    ((NewChunker ⟨[⟨[97, 98, 99], some "EOF"⟩]⟩ []).Read (fun _ => false)).channelClosed = true := by
  decide

end stream

namespace cri

variable {Ctx E : Type}

/-- A call of `ImageStatus` with an image spec that is not nil returns an error,
with a nil image, exactly when the call of the image service fails or succeeds
with an image whose Id is empty or whose size is 0; in every other case it returns
the image of the response as it is, with a nil error; an absent image is returned
as (nil, nil); and an image returned with a nil error has a non-empty Id and a
size that is not 0. -/
theorem ImageStatus_with_spec (c : Client Ctx E) (ctx : Ctx) (image : Option ImageSpec)
    (spec : ImageSpec) (himage : image = some spec) :
    ((∃ img err, c.ImageStatus ctx image = some (img, some err)) ↔
      ((∃ e, c.imagesClient ctx ⟨image⟩ = .error e) ∨
       ∃ resp img, c.imagesClient ctx ⟨image⟩ = .ok resp ∧ resp.Image = some img ∧
         (img.Id = "" ∨ img.Size_ = 0))) ∧
    (∀ img err, c.ImageStatus ctx image = some (img, some err) → img = none) ∧
    (∀ resp, c.imagesClient ctx ⟨image⟩ = .ok resp →
      (∀ img, resp.Image = some img → img.Id ≠ "" ∧ img.Size_ ≠ 0) →
      c.ImageStatus ctx image = some (resp.Image, none)) ∧
    (∀ resp, c.imagesClient ctx ⟨image⟩ = .ok resp → resp.Image = none →
      c.ImageStatus ctx image = some (none, none)) ∧
    (∀ img, c.ImageStatus ctx image = some (some img, none) →
      img.Id ≠ "" ∧ img.Size_ ≠ 0 ∧
      ∃ resp, c.imagesClient ctx ⟨image⟩ = .ok resp ∧ resp.Image = some img) ∧
    c.ImageStatus ctx image ≠ none := by
  subst himage
  unfold Client.ImageStatus
  cases hc : c.imagesClient ctx ⟨some spec⟩ with
  | error e => simp
  | ok resp =>
    rcases resp with ⟨_ | img⟩
    · simp
    · by_cases hb : img.Id = "" ∨ img.Size_ = 0
      · rcases hb with h | h <;> simp [h]
      · have hb1 := hb
        simp only [not_or] at hb1
        simp [hb, hb1.1, hb1.2]

/-- An image service that knows the image "pause" with an Id and a size: the
image comes back as it is, with a nil error. -/
theorem ImageStatus_with_spec_example :
    (⟨fun _ _ => .ok ⟨some ⟨"sha256:1", ["pause"], [], 742472, ""⟩⟩⟩ : Client Unit String).ImageStatus
      () (some ⟨"pause"⟩) = some (some ⟨"sha256:1", ["pause"], [], 742472, ""⟩, none) :=
  (ImageStatus_with_spec
    (⟨fun _ _ => .ok ⟨some ⟨"sha256:1", ["pause"], [], 742472, ""⟩⟩⟩ : Client Unit String)
    () (some ⟨"pause"⟩) ⟨"pause"⟩ rfl).2.2.1 ⟨some ⟨"sha256:1", ["pause"], [], 742472, ""⟩⟩ rfl
    (by decide)

/-- C23 fails on the code. ImageStatus called with a nil image spec: when the call
of the image service fails, and when it succeeds with an image whose Id is empty,
ImageStatus reads image.Image to build the error message and faults on the nil
pointer instead of returning an error; with the spec "pause" the same two answers
of the service are returned as errors. -/
theorem ImageStatus_faults_on_nil_spec :
    (⟨fun _ _ => .error "unavailable"⟩ : Client Unit String).ImageStatus () none = none ∧
    (⟨fun _ _ => .ok ⟨some ⟨"", [], [], 0, ""⟩⟩⟩ : Client Unit String).ImageStatus () none
      = none ∧
    (⟨fun _ _ => .error "unavailable"⟩ : Client Unit String).ImageStatus () (some ⟨"pause"⟩)
      = some (none, some (.Wrapf "unavailable" "ImageStatus %q from image service failed"
          "pause")) ∧
    (⟨fun _ _ => .ok ⟨some ⟨"", [], [], 0, ""⟩⟩⟩ : Client Unit String).ImageStatus ()
        (some ⟨"pause"⟩)
      = some (none, some (.Errorf "Id or size of image %q is not set" "pause")) := by
  decide

end cri
